import Mathlib

/-!
Verification of the adaptive-difficulty and question-generation core of
`MathTrainer.py` (class `MathSpeedTrainer`).  The Python methods are shallowly
embedded as pure Lean functions: machine floats become exact rationals,
Python ints become `ℤ`, the pseudo-random generator becomes an explicit
stream of naturals (one element consumed per primitive draw), and the
unbounded recursion of `generate_question` becomes fuel returning `Option`.
-/

namespace MathTrainer

/-- A random source: an infinite stream of raw draws.  Each call to a
primitive of the `random` module consumes a fixed number of elements. -/
abbrev Rng := ℕ → ℕ

/-- Advance the random source past the first `k` draws. -/
def rdrop (s : Rng) (k : ℕ) : Rng := fun n => s (n + k)

/-- Model of Python `random.randint(a, b)` (both bounds inclusive): the raw
draw `r` is reduced into the interval.  Python raises on `b < a`; the model
clamps the width at 1 instead (callers in this program keep `a ≤ b`). -/
def randint (a b : ℤ) (r : ℕ) : ℤ := a + (r : ℤ) % (max 1 (b - a + 1))

/-- Model of Python `random.choice(l)` on a nonempty list. -/
def pychoice {α : Type} [Inhabited α] (l : List α) (r : ℕ) : α :=
  l.getD (r % l.length) default

/-- Python `int(q)` on a float: truncation toward zero. -/
def pyint (q : ℚ) : ℤ := if 0 ≤ q then ⌊q⌋ else ⌈q⌉

/-- Python `round(q)`: round half to even (banker rounding). -/
def pyround (q : ℚ) : ℤ :=
  let f := ⌊q⌋
  let r := q - f
  if r < 1/2 then f else if 1/2 < r then f + 1 else if Even f then f else f + 1

/-- Python `round(q, 1)`: round to one decimal digit, half to even. -/
def pyround1 (q : ℚ) : ℚ := (pyround (q * 10) : ℚ) / 10

/-- Python `round(q, 2)`: round to two decimal digits, half to even. -/
def pyround2 (q : ℚ) : ℚ := (pyround (q * 100) : ℚ) / 100

/-- Model of Python `random.shuffle` (in-place Fisher-Yates): repeatedly pick
a position of the remaining list from the random source and emit the element
there.  The fuel is instantiated with the length of the list, which makes the
recursion structural. -/
def pyshuffle {α : Type} [DecidableEq α] : ℕ → List α → Rng → List α
  | 0, l, _ => l
  | _ + 1, [], _ => []
  | n + 1, x :: xs, s =>
    let y := (x :: xs).getD (s 0 % (x :: xs).length) x
    y :: pyshuffle n ((x :: xs).erase y) (rdrop s 1)

/-- The per-level parameter set produced by `get_difficulty_params`: the
Python dict with keys `range`, `digits` and (sometimes absent) `mult_range`. -/
structure DifficultyParams where
  range : ℤ × ℤ
  digits : ℤ
  mult_range : Option (ℤ × ℤ)
deriving Repr, DecidableEq

/-- `self.difficulty_brackets`: rows `(min_level, max_level, params)`. -/
def difficulty_brackets : List (ℤ × ℤ × DifficultyParams) :=
  [(1, 5, ⟨(1, 10), 1, none⟩),
   (6, 10, ⟨(1, 50), 2, none⟩),
   (11, 15, ⟨(10, 100), 2, none⟩),
   (16, 20, ⟨(10, 200), 3, some (2, 20)⟩),
   (21, 30, ⟨(50, 500), 3, some (2, 50)⟩),
   (31, 50, ⟨(100, 1000), 3, some (10, 100)⟩),
   (51, 100, ⟨(100, 9999), 4, some (10, 200)⟩)]

/-- The bracket scan at the top of `get_difficulty_params`: the first row
whose interval contains `level`, else the initial default params
`range=(1,10), digits=1, mult_range=(2,10)`. -/
def bracketLookup (level : ℤ) : DifficultyParams :=
  match difficulty_brackets.find? (fun b => decide (b.1 ≤ level) && decide (level ≤ b.2.1)) with
  | some b => b.2.2
  | none => ⟨(1, 10), 1, some (2, 10)⟩

/-- `get_difficulty_params(self, level)`.  `self_assessment_level` is the
stored tier string; comparisons and the default branch mirror the Python
`if`/`elif` chain.  Float arithmetic is modelled exactly over `ℚ`. -/
def get_difficulty_params (self_assessment_level : String) (level : ℤ) : DifficultyParams :=
  let last := difficulty_brackets.getLastD (1, 10, ⟨(1, 10), 1, none⟩)
  let params0 := bracketLookup level
  let params1 :=
    if last.2.1 < level then
      let p := last.2.2
      let base_scaling_divisor : ℚ :=
        if self_assessment_level = "bad" then 30
        else if self_assessment_level = "nice" then 15
        else if self_assessment_level = "perfect" then 10
        else 20
      let factor : ℚ := 1 + ((level : ℚ) - (last.2.1 : ℚ)) / base_scaling_divisor
      let range1 := (pyint ((p.range.1 : ℚ) * factor), pyint ((p.range.2 : ℚ) * factor))
      let mult1 := p.mult_range.map
        (fun mr => (pyint ((mr.1 : ℚ) * factor), pyint ((mr.2 : ℚ) * factor)))
      let digit_scaling_divisor : ℚ :=
        if self_assessment_level = "bad" then 20
        else if self_assessment_level = "perfect" then 10
        else 15
      let digits1 :=
        min (p.digits + pyint (((level : ℚ) - (last.2.1 : ℚ)) / digit_scaling_divisor)) 6
      ⟨range1, digits1, mult1⟩
    else params0
  let params2 :=
    if params1.range.2 ≤ params1.range.1 then
      { params1 with range :=
          if 1 < params1.range.2 then (max 1 (params1.range.2 - 1), params1.range.2) else (1, 2) }
    else params1
  match params2.mult_range with
  | some mr =>
    if mr.2 ≤ mr.1 then
      let mr1 := if 1 < mr.2 then (max 1 (mr.2 - 1), mr.2) else ((1 : ℤ), (2 : ℤ))
      { params2 with mult_range := some (max 1 mr1.1, mr1.2) }
    else params2
  | none => params2

/-- `calculate_xp_for_level(self, level)`: 100 for level ≤ 1, else
`int(100 * 1.5 ** (level - 1))`, the float power modelled exactly in `ℚ`. -/
def calculate_xp_for_level (level : ℤ) : ℤ :=
  if level ≤ 1 then 100 else pyint (100 * (3 / 2 : ℚ) ^ (level - 1).toNat)

/-- The progression slice of the trainer state: `current_level`,
`current_xp`, `xp_needed`. -/
structure Progression where
  current_level : ℤ
  current_xp : ℤ
  xp_needed : ℤ
deriving Repr, DecidableEq

/-- `update_xp_and_level(self)`: the `while self.current_xp >= self.xp_needed`
loop.  The Python loop diverges if `xp_needed ≤ 0`; that state is unreachable
(`xp_needed` always comes from `calculate_xp_for_level`, which is ≥ 100), so
the model additionally guards on `0 < xp_needed` to stay total. -/
def update_xp_and_level (p : Progression) : Progression :=
  if h : 0 < p.xp_needed ∧ p.xp_needed ≤ p.current_xp then
    update_xp_and_level
      ⟨p.current_level + 1, p.current_xp - p.xp_needed,
        calculate_xp_for_level (p.current_level + 1 + 1)⟩
  else p
termination_by p.current_xp.toNat
decreasing_by
  omega

/-- The question dict produced by `generate_question`: keys `text`, `answer`,
`op_type`, `num1`, `num2`, `raw_question`.  Answers are always Python ints in
this program, so `answer : ℤ`. -/
structure Question where
  text : String
  answer : ℤ
  op_type : String
  num1 : ℤ
  num2 : ℤ
  raw_question : ℤ × ℤ × String
deriving Repr, DecidableEq

/-- The insertion order of the keys of `self.operations`. -/
def operationOrder : List String :=
  ["addition", "subtraction", "multiplication", "division", "powers", "roots", "percentages"]

/-- `[op for op, enabled in self.operations.items() if enabled]`. -/
def enabledOps (ops : String → Bool) : List String := operationOrder.filter ops

/-- One attempt of the division branch rejection sampling: the divisor and
candidate-quotient draws and the dividend `n1 = n2 * answer_candidate`,
returned as `(n1, n2, answer_candidate)`. -/
def division_attempt_once (level : ℤ) (params : DifficultyParams) (s : Rng) : ℤ × ℤ × ℤ :=
  let div_min : ℤ := if 3 < level then 2 else 1
  let mr := params.mult_range.getD (2, 12)
  let div_max := max (div_min + 1) (mr.2.fdiv 2 + 1)
  let n2 := randint div_min div_max (s 0)
  let n2 := if n2 = 0 then 1 else n2
  let quotient_min : ℤ := 1
  let quotient_max := max (quotient_min + 1) mr.1
  let answer_candidate := randint quotient_min quotient_max (s 1)
  (n2 * answer_candidate, n2, answer_candidate)

/-- The bounded rejection-sampling loop of the division branch of
`generate_question` (`for _ in range(100)`), called with attempt budget 100.
Returns the accepted `(n1, n2, answer)` triple, or `none` when every attempt
produced a dividend outside the value range.  Each attempt consumes two
draws. -/
def division_attempts (level : ℤ) (params : DifficultyParams) (minVal maxVal : ℤ) :
    ℕ → Rng → Option (ℤ × ℤ × ℤ)
  | 0, _ => none
  | n + 1, s =>
    let r := division_attempt_once level params s
    if minVal ≤ r.1 ∧ r.1 ≤ maxVal then some r
    else division_attempts level params minVal maxVal n (rdrop s 2)

/-- The addition branch of `generate_question`. -/
def addition_question (minVal maxVal : ℤ) (s : Rng) : Question :=
  let n1 := randint minVal maxVal (s 0)
  let n2 := randint minVal maxVal (s 1)
  ⟨toString n1 ++ " + " ++ toString n2 ++ " = ?", n1 + n2, "addition", n1, n2, (n1, n2, "+")⟩

/-- The subtraction branch of `generate_question`, with the defensive swap
applied below level 10. -/
def subtraction_question (level minVal maxVal : ℤ) (s : Rng) : Question :=
  let n1 := randint minVal maxVal (s 0)
  let n2 := randint minVal n1 (s 1)
  let p := if level < 10 ∧ n1 < n2 then (n2, n1) else (n1, n2)
  ⟨toString p.1 ++ " - " ++ toString p.2 ++ " = ?", p.1 - p.2, "subtraction",
    p.1, p.2, (p.1, p.2, "-")⟩

/-- The multiplication branch of `generate_question`, with the small-operand
overrides for levels ≤ 3 and ≤ 7. -/
def multiplication_question (level : ℤ) (params : DifficultyParams) (s : Rng) : Question :=
  let mr := params.mult_range.getD (2, 10)
  let mult_min := max 1 mr.1
  let mult_max := max (mult_min + 1) mr.2
  let n1 := randint mult_min mult_max (s 0)
  let n2 := randint mult_min mult_max (s 1)
  let p := if level ≤ 3 then (randint 1 5 (s 2), randint 1 5 (s 3))
    else if level ≤ 7 then (randint 1 10 (s 2), randint 1 10 (s 3))
    else (n1, n2)
  ⟨toString p.1 ++ " × " ++ toString p.2 ++ " = ?", p.1 * p.2, "multiplication",
    p.1, p.2, (p.1, p.2, "*")⟩

/-- The question assembled from an accepted division triple `(n1, n2, answer)`. -/
def division_question (r : ℤ × ℤ × ℤ) : Question :=
  ⟨toString r.1 ++ " ÷ " ++ toString r.2.1 ++ " = ?", r.2.2, "division",
    r.1, r.2.1, (r.1, r.2.1, "/")⟩

/-- The powers branch of `generate_question`: `none` when the drawn power
fails the `answer > 10000 and level < 40` magnitude check (the source then
regenerates).  The dead `except OverflowError` handler is omitted
(`int ** int` cannot raise it). -/
def powers_attempt (level : ℤ) (s : Rng) : Option Question :=
  let base_max : ℤ := if level < 20 then 15 else if level < 30 then 10 else 20
  let exp_max : ℤ := if level < 25 then 3 else if level < 40 then 4 else 3
  let base_max := max 2 base_max
  let n1 := randint 2 base_max (s 0)
  let n2 := randint 2 exp_max (s 1)
  let answer := n1 ^ n2.toNat
  if 10000 < answer ∧ level < 40 then none
  else some ⟨toString n1 ++ "^" ++ toString n2 ++ " = ?", answer, "powers",
    n1, n2, (n1, n2, "^")⟩

/-- The roots branch of `generate_question`: the answer is drawn first and
raised to the root degree; `none` when the radicand fails the
`n_val > max_val * 2 and level < 40` check (the source then regenerates). -/
def roots_attempt (level maxVal : ℤ) (s : Rng) : Option Question :=
  let root_type := pychoice [(2 : ℤ), 2, 3] (s 0)
  let max_base_for_root : ℤ := if root_type = 2 then 20 else if root_type = 3 then 10 else 15
  let max_base_for_root := max 2 max_base_for_root
  let n1_ans := randint 2 max_base_for_root (s 1)
  let n_val := n1_ans ^ root_type.toNat
  if maxVal * 2 < n_val ∧ level < 40 then none
  else some ⟨(if root_type = 2 then "√" else "∛") ++ toString n_val ++ " = ?",
    n1_ans, "roots", n_val, root_type, (n_val, root_type, "√")⟩

/-- The percentages branch of `generate_question`: `none` when
`(percent / 100) * base` is not an exact integer (the source then
regenerates).  The float test `res_float == int(res_float)` is modelled
exactly as divisibility by 100. -/
def percentages_attempt (level : ℤ) (s : Rng) : Option Question :=
  let percent := randint 1 4 (s 0) * pychoice [(5 : ℤ), 10, 20, 25] (s 1)
  let percent := min percent 100
  let base_num_options : List ℤ :=
    [10, 20, 40, 50, 60, 80, 100, 120, 150, 200, 250, 300, 400, 500] ++
      (if 25 < level then [600, 750, 800, 1000] else [])
  let n2 := pychoice base_num_options (s 2)
  let n1 := percent
  if n1 * n2 % 100 = 0 then
    some ⟨toString n1 ++ "% of " ++ toString n2 ++ " = ?", n1 * n2 / 100, "percentages",
      n1, n2, (n1, n2, "%")⟩
  else none

/-- `generate_question(self, level, chosen_operation=None)`.

The unbounded regeneration recursion of the source becomes fuel: `none` means
the Python call would still be recursing after `fuel` nested self-calls (in
CPython an unbounded chain raises `RecursionError`).  `ops` is the
`self.operations` enabled map and `tier` the stored self-assessment level. -/
def generate_question (ops : String → Bool) (tier : String) :
    ℕ → ℤ → Option String → Rng → Option Question
  | 0, _, _, _ => none
  | fuel + 1, level, chosen_operation, s =>
    let params := get_difficulty_params tier level
    let minVal := params.range.1
    let maxVal := params.range.2
    let enabled_ops := enabledOps ops
    if enabled_ops.isEmpty then
      some ⟨"No operations selected!", 0, "error", 0, 0, (0, 0, "error")⟩
    else
      let pick : String × Rng :=
        chosen_operation.elim (pychoice enabled_ops (s 0), rdrop s 1)
          (fun c => if enabled_ops.contains c then (c, s)
            else (pychoice enabled_ops (s 0), rdrop s 1))
      let op_type := pick.1
      let s := pick.2
      if op_type = "addition" then some (addition_question minVal maxVal s)
      else if op_type = "subtraction" then some (subtraction_question level minVal maxVal s)
      else if op_type = "multiplication" then some (multiplication_question level params s)
      else if op_type = "division" then
        match division_attempts level params minVal maxVal 100 s with
        | some r => some (division_question r)
        | none => generate_question ops tier fuel level (some "addition") (rdrop s 200)
      else if op_type = "powers" ∧ 10 ≤ level then
        match powers_attempt level s with
        | some q => some q
        | none =>
          generate_question ops tier fuel level
            (some (pychoice ["addition", "multiplication"] (s 2))) (rdrop s 3)
      else if op_type = "roots" ∧ 15 ≤ level then
        match roots_attempt level maxVal s with
        | some q => some q
        | none =>
          generate_question ops tier fuel level
            (some (pychoice ["addition", "subtraction"] (s 2))) (rdrop s 3)
      else if op_type = "percentages" ∧ 8 ≤ level then
        match percentages_attempt level s with
        | some q => some q
        | none =>
          generate_question ops tier fuel level
            (some (pychoice ["addition", "multiplication"] (s 3))) (rdrop s 4)
      else
        generate_question ops tier fuel level
          (some (pychoice ["addition", "subtraction"] (s 0))) (rdrop s 1)

/-- One entry of `self.operation_stats[op]`: keys `correct`, `incorrect`,
`avg_time`, `total_answered_for_avg`. -/
structure OpStat where
  correct : ℤ
  incorrect : ℤ
  avg_time : ℚ
  total_answered_for_avg : ℤ
deriving Repr, DecidableEq

/-- One entry of `self.persistently_wrong_questions`. -/
structure WrongEntry where
  raw_q : ℤ × ℤ × String
  answer : ℤ
  op_type : String
deriving Repr, DecidableEq

/-- One entry of `self.persistently_slow_questions` (it additionally stores
the detection metadata `original_time` and `avg_at_detection`). -/
structure SlowEntry where
  raw_q : ℤ × ℤ × String
  answer : ℤ
  op_type : String
  original_time : ℚ
  avg_at_detection : ℚ
deriving Repr, DecidableEq

/-- The per-operation block of a session record: keys `correct`, `total`,
`avg_time`. -/
structure OpPerformance where
  correct : ℤ
  total : ℤ
  avg_time : ℚ
deriving Repr, DecidableEq

/-- One element of `self.session_history`, as assembled in `stop_game`. -/
structure SessionRecord where
  date : String
  duration_setting : ℚ
  actual_duration : ℚ
  total : ℤ
  correct : ℤ
  accuracy : ℚ
  avg_time : ℚ
  xp_gained_raw : ℤ
  level_at_end : ℤ
  operations_performance : List (String × OpPerformance)
deriving Repr, DecidableEq

/-- `defaultdict(list)` keyed by operation, as an association list in key
insertion order: `d[k].append(t)`. -/
def dictAppend (d : List (String × List ℚ)) (k : String) (t : ℚ) : List (String × List ℚ) :=
  if d.any (fun kv => kv.1 == k) then
    d.map (fun kv => if kv.1 == k then (kv.1, kv.2 ++ [t]) else kv)
  else d ++ [(k, [t])]

/-- `defaultdict(int)` keyed by operation: `d[k] += 1`. -/
def dictIncr (d : List (String × ℤ)) (k : String) : List (String × ℤ) :=
  if d.any (fun kv => kv.1 == k) then
    d.map (fun kv => if kv.1 == k then (kv.1, kv.2 + 1) else kv)
  else d ++ [(k, 1)]

/-- `defaultdict(int)` read access `d[k]` (0 when the key is absent). -/
def dictGetInt (d : List (String × ℤ)) (k : String) : ℤ :=
  ((d.find? (fun kv => kv.1 == k)).map Prod.snd).getD 0

/-- The mutable attributes of `MathSpeedTrainer` touched by the scoring and
session paths (`process_answer_result`, `update_xp_and_level`, `stop_game`).
GUI widget state is not part of the model. -/
structure TrainerState where
  game_active : Bool
  practice_active : Bool
  current_practice_type : Option String
  questions_answered : ℤ
  correct_answers : ℤ
  session_operation_times : List (String × List ℚ)
  session_operation_correct : List (String × ℤ)
  session_operation_incorrect : List (String × ℤ)
  operation_stats : String → OpStat
  persistently_wrong_questions : List WrongEntry
  persistently_slow_questions : List SlowEntry
  current_level : ℤ
  current_xp : ℤ
  xp_needed : ℤ
  session_history : List SessionRecord
  practice_questions_answered : ℤ
  practice_correct_answers : ℤ
  answer_mode : String
  game_duration : ℚ
  game_end_time : Option ℚ

/-- The `xp_gained` computation of the correct-answer branch of
`process_answer_result` (speed bonus, level bonus, multiple-choice factor
`int(xp_gained * 0.7)`). -/
def answer_xp_gained (st : TrainerState) (time_taken : ℚ) : ℤ :=
  let g : ℤ := 10
  let g := if time_taken < 3 then g + 5 else if time_taken < 5 then g + 2 else g
  let g := g + st.current_level.fdiv 5
  if st.answer_mode = "mc" then pyint ((g : ℚ) * (7 / 10)) else g

/-- The slow-question detection and insertion of `process_answer_result`:
runs only when the passed (pre-average-update) stat has more than 5 samples;
thresholds `avg * 1.75` and `avg + 4` (the latter only when `avg > 2`);
dedup on `(raw_q, op_type)`; hard cap of 20 entries. -/
def slow_queue_update (slow : List SlowEntry) (stat : OpStat) (raw : ℤ × ℤ × String)
    (ans : ℤ) (op : String) (t : ℚ) : List SlowEntry :=
  if 5 < stat.total_answered_for_avg then
    let avg_op_time := stat.avg_time
    if avg_op_time * (7 / 4) < t ∨ (avg_op_time + 4 < t ∧ 2 < avg_op_time) then
      let already_slow := slow.any (fun item => item.raw_q == raw && item.op_type == op)
      if ¬already_slow = true ∧ slow.length < 20 then
        slow ++ [⟨raw, ans, op, pyround2 t, pyround2 avg_op_time⟩]
      else slow
    else slow
  else slow

/-- The wrong-question insertion of `process_answer_result`: dedup on
`(raw_q, op_type)`; hard cap of 30 entries. -/
def wrong_queue_update (wrong : List WrongEntry) (raw : ℤ × ℤ × String)
    (ans : ℤ) (op : String) : List WrongEntry :=
  let already_wrong := wrong.any (fun item => item.raw_q == raw && item.op_type == op)
  if ¬already_wrong = true ∧ wrong.length < 30 then wrong ++ [⟨raw, ans, op⟩] else wrong

/-- The incremental running-average update of `process_answer_result`:
`new_avg = (old_avg * old_n + t) / (old_n + 1)`. -/
def avg_time_update (stat : OpStat) (t : ℚ) : OpStat :=
  let new_n := stat.total_answered_for_avg + 1
  { stat with
      avg_time := (stat.avg_time * (stat.total_answered_for_avg : ℚ) + t) / (new_n : ℚ),
      total_answered_for_avg := new_n }

/-- The removal list comprehension used by the `wrong_ones` practice branch:
keep entries whose `(raw_q, op_type)` differs from the answered question. -/
def remove_matching_wrong (l : List WrongEntry) (raw : ℤ × ℤ × String) (op : String) :
    List WrongEntry :=
  l.filter (fun e => !(e.raw_q == raw && e.op_type == op))

/-- The removal list comprehension used by the `slow_ones` practice branch. -/
def remove_matching_slow (l : List SlowEntry) (raw : ℤ × ℤ × String) (op : String) :
    List SlowEntry :=
  l.filter (fun e => !(e.raw_q == raw && e.op_type == op))

/-- The correct-answer arm of the scoring block of `process_answer_result`:
session correct counters, the XP gain (committed to `current_xp` only in
game mode), the per-operation correct counter, and the slow-question
detection (which reads the stats before the running-average update). -/
def record_correct_answer (stA : TrainerState) (raw : ℤ × ℤ × String) (ansv : ℤ)
    (op_type : String) (time_taken : ℚ) : TrainerState :=
  let stC := { stA with
    correct_answers :=
      if stA.game_active || stA.practice_active then stA.correct_answers + 1
      else stA.correct_answers,
    session_operation_correct := dictIncr stA.session_operation_correct op_type }
  let xp_gained := answer_xp_gained stC time_taken
  let stD := { stC with
    current_xp := if stC.game_active then stC.current_xp + xp_gained else stC.current_xp }
  let stE := { stD with operation_stats := fun o =>
    if o = op_type then
      { stD.operation_stats o with correct := (stD.operation_stats o).correct + 1 }
    else stD.operation_stats o }
  { stE with persistently_slow_questions :=
      (slow_queue_update stE.persistently_slow_questions (stE.operation_stats op_type)
        raw ansv op_type time_taken) }

/-- The incorrect-answer arm of the scoring block of
`process_answer_result`: session incorrect counter, per-operation incorrect
counter, and the wrong-queue insertion. -/
def record_incorrect_answer (stA : TrainerState) (raw : ℤ × ℤ × String) (ansv : ℤ)
    (op_type : String) : TrainerState :=
  let stC := { stA with
    session_operation_incorrect :=
      if stA.game_active || stA.practice_active then
        dictIncr stA.session_operation_incorrect op_type
      else stA.session_operation_incorrect,
    operation_stats := fun o =>
      if o = op_type then
        { stA.operation_stats o with incorrect := (stA.operation_stats o).incorrect + 1 }
      else stA.operation_stats o }
  { stC with persistently_wrong_questions :=
      wrong_queue_update stC.persistently_wrong_questions raw ansv op_type }

/-- The statistics-and-queues block of `process_answer_result` (the body of
its `if self.game_active or self.practice_active`): session tallies, the
correct/incorrect branch (XP bonus, per-operation counters, slow detection
or wrong-queue insertion) and the unconditional running-average update. -/
def record_answer_stats (st : TrainerState) (q : Question) (is_correct : Bool)
    (time_taken : ℚ) : TrainerState :=
  let op_type := q.op_type
  let raw := q.raw_question
  let ansv := q.answer
  let stA := { st with
    questions_answered := st.questions_answered + 1,
    session_operation_times := dictAppend st.session_operation_times op_type time_taken }
  let stB :=
    if is_correct then record_correct_answer stA raw ansv op_type time_taken
    else record_incorrect_answer stA raw ansv op_type
  { stB with operation_stats := fun o =>
      if o = op_type then avg_time_update (stB.operation_stats o) time_taken
      else stB.operation_stats o }

/-- The mode-dependent tail of `process_answer_result`: in game mode the XP
and level commit (`update_xp_and_level`), in practice mode the practice
tallies and the retry-queue removals of the `wrong_ones` and `slow_ones`
practice types. -/
def answer_mode_effects (st1 : TrainerState) (q : Question) (is_correct : Bool) :
    TrainerState :=
  let raw := q.raw_question
  let op_type := q.op_type
  if st1.game_active then
    let p := update_xp_and_level ⟨st1.current_level, st1.current_xp, st1.xp_needed⟩
    { st1 with
        current_level := p.current_level,
        current_xp := p.current_xp,
        xp_needed := p.xp_needed }
  else if st1.practice_active then
    let st2 := { st1 with
      practice_questions_answered := st1.practice_questions_answered + 1,
      practice_correct_answers :=
        st1.practice_correct_answers + (if is_correct then 1 else 0) }
    if st2.current_practice_type == some "wrong_ones" && is_correct then
      { st2 with persistently_wrong_questions :=
          remove_matching_wrong st2.persistently_wrong_questions raw op_type }
    else if st2.current_practice_type == some "slow_ones" then
      { st2 with persistently_slow_questions :=
          remove_matching_slow st2.persistently_slow_questions raw op_type }
    else st2
  else st1

/-- `process_answer_result(self, is_correct)`.

The answered question and its latency are explicit parameters (the source
reads them from `self.current_question_details` and the wall clock).  GUI
calls, `save_user_data` and the feedback strings are omitted; in game mode
the trailing `next_question` call only affects widget state.  The redundant
inner `if self.game_active or self.practice_active` re-checks of the source
are kept as written (inside `record_correct_answer` and
`record_incorrect_answer`). -/
def process_answer_result (st : TrainerState) (q : Question) (is_correct : Bool)
    (time_taken : ℚ) : TrainerState :=
  let st1 :=
    if st.game_active || st.practice_active then record_answer_stats st q is_correct time_taken
    else st
  answer_mode_effects st1 q is_correct

/-- The dedup key of a wrong-queue entry: `(canonical form, operation)`. -/
def wrongKey (e : WrongEntry) : (ℤ × ℤ × String) × String := (e.raw_q, e.op_type)

/-- The dedup key of a slow-queue entry: `(canonical form, operation)`. -/
def slowKey (e : SlowEntry) : (ℤ × ℤ × String) × String := (e.raw_q, e.op_type)

/-- Invariant carried through the candidate-collection loops of
`generate_mc_options`: no duplicates, the correct answer present, at most 4
members. -/
def McInv (ca : ℚ) (l : List ℚ) : Prop := l.Nodup ∧ ca ∈ l ∧ l.length ≤ 4

/-- Folding a whole list of `(is_correct, elapsed_seconds)` answer records
for the same question through `process_answer_result`, in order. -/
def run_answers (st : TrainerState) (q : Question) (rs : List (Bool × ℚ)) : TrainerState :=
  rs.foldl (fun acc r => process_answer_result acc q r.1 r.2) st

/-- The default `self.operations` map of `__init__`: the four basic
operations enabled, `powers`, `roots` and `percentages` disabled. -/
def defaultOperations : String → Bool := fun op =>
  op == "addition" || op == "subtraction" || op == "multiplication" || op == "division"

/-- An operations map with only `roots` enabled (every other flag False). -/
def rootsOnly : String → Bool := fun op => op == "roots"

/-- A slow-queue entry used in the concrete counterexample state. -/
def slowEntryEx : SlowEntry := ⟨(3, 4, "+"), 7, "addition", 5, 2⟩

/-- The question matching `slowEntryEx`, as re-presented during slow-queue
practice. -/
def questionEx : Question := ⟨"3 + 4 = ?", 7, "addition", 3, 4, (3, 4, "+")⟩

/-- A trainer state in the middle of a `slow_ones` practice session whose
slow queue holds exactly `slowEntryEx`. -/
def stateEx : TrainerState where
  game_active := false
  practice_active := true
  current_practice_type := some "slow_ones"
  questions_answered := 0
  correct_answers := 0
  session_operation_times := []
  session_operation_correct := []
  session_operation_incorrect := []
  operation_stats := fun _ => ⟨0, 0, 0, 0⟩
  persistently_wrong_questions := []
  persistently_slow_questions := [slowEntryEx]
  current_level := 1
  current_xp := 0
  xp_needed := 100
  session_history := []
  practice_questions_answered := 0
  practice_correct_answers := 0
  answer_mode := "text"
  game_duration := 60
  game_end_time := none

/-- `stateEx` with a `wrong_ones` practice session and one wrong entry. -/
def stateExW : TrainerState :=
  { stateEx with
      current_practice_type := some "wrong_ones",
      persistently_wrong_questions := [⟨(3, 4, "+"), 7, "addition"⟩],
      persistently_slow_questions := [] }

/-- Thirty wrong-queue entries with pairwise distinct keys. -/
def wrongFull : List WrongEntry :=
  (List.range 30).map (fun i => ⟨((i : ℤ), 0, "+"), 0, "addition"⟩)

/-- Twenty slow-queue entries with pairwise distinct keys. -/
def slowFull : List SlowEntry :=
  (List.range 20).map (fun i => ⟨((i : ℤ), 0, "+"), 0, "addition", 1, 1⟩)

/-- A game-mode state whose retry queues are both exactly at their caps. -/
def stateFull : TrainerState :=
  { stateEx with
      game_active := true,
      practice_active := false,
      current_practice_type := none,
      persistently_wrong_questions := wrongFull,
      persistently_slow_questions := slowFull }

/-- A fresh game-mode state with empty statistics. -/
def stateFresh : TrainerState :=
  { stateEx with
      game_active := true,
      practice_active := false,
      current_practice_type := none,
      persistently_slow_questions := [] }

/-- An addition question re-used by several concrete witnesses; its key
`((5, 0, "+"), "addition")` matches one entry of `wrongFull` and one of
`slowFull`. -/
def questionFive : Question := ⟨"5 + 0 = ?", 5, "addition", 5, 0, (5, 0, "+")⟩

/-- The division question produced by `generate_question` at level 5 with the
constant-affine raw stream below. -/
def divisionQuestionEx : Question := ⟨"7 ÷ 7 = ?", 1, "division", 7, 7, (7, 7, "/")⟩

/-- The four options produced by `generate_mc_options "good" 7 3` on the
identity raw stream. -/
def mcOptionsEx : List ℚ := [5, 7, 6, 13 / 2]

/-- `calculate_total_session_xp(self)`. -/
def calculate_total_session_xp (st : TrainerState) : ℤ := st.correct_answers * 10

/-- `stop_game(self, timed_out=False)`: the state effect (session record
assembly and history append).  `timed_out` only selects a message; widget
updates, message boxes,
`save_user_data` and the stats refresh are omitted; `now` is the
`time.time()` reading and `date_str` the formatted date. -/
def stop_game (st : TrainerState) (_timed_out : Bool) (now : ℚ) (date_str : String) :
    TrainerState :=
  let was_active := st.game_active
  let st := { st with game_active := false }
  if was_active && 0 < st.questions_answered then
    let accuracy := ((st.correct_answers : ℚ) / (st.questions_answered : ℚ)) * 100
    let total_session_time_spent := (st.session_operation_times.map (fun kv => kv.2.sum)).sum
    let total_session_questions_for_avg :=
      (st.session_operation_times.map (fun kv => (kv.2.length : ℤ))).sum
    let avg_time_per_q :=
      if 0 < total_session_questions_for_avg then
        total_session_time_spent / (total_session_questions_for_avg : ℚ)
      else 0
    let session_data : SessionRecord :=
      { date := date_str
        duration_setting := st.game_duration
        actual_duration :=
          match st.game_end_time with
          | some t => st.game_duration - max 0 (t - now)
          | none => st.game_duration
        total := st.questions_answered
        correct := st.correct_answers
        accuracy := accuracy
        avg_time := avg_time_per_q
        xp_gained_raw := calculate_total_session_xp st
        level_at_end := st.current_level
        operations_performance := st.session_operation_times.map (fun kv =>
          (kv.1, ⟨dictGetInt st.session_operation_correct kv.1, (kv.2.length : ℤ),
            if kv.2.isEmpty then 0 else kv.2.sum / (kv.2.length : ℚ)⟩)) }
    { st with session_history := st.session_history ++ [session_data] }
  else st

/-- Python `set.add` on a set modelled as a duplicate-free list (insertion
order; CPython iterates a small int set in hash order, but the result is
shuffled before use, so only the underlying set matters). -/
def setAdd (l : List ℚ) (x : ℚ) : List ℚ := if x ∈ l then l else l ++ [x]

/-- `list(dict.fromkeys(l))`: deduplicate keeping first occurrences. -/
def pydedup (l : List ℚ) : List ℚ :=
  l.foldl (fun acc x => if x ∈ acc then acc else acc ++ [x]) []

/-- `max(l)` on a nonempty list (with a default for the empty case). -/
def pymax (l : List ℚ) (dflt : ℚ) : ℚ :=
  match l with
  | [] => dflt
  | x :: xs => xs.foldl max x

/-- The distractor value computed by one iteration of the first candidate
loop of `generate_mc_options`: a signed offset around the correct answer.
In this program `correct_answer` is always an int (every generated answer
is), so the `isinstance(correct_answer, float)` test is false and the branch
on `abs(offset_val) < 1` decides; `math.isclose` against the rounded value
is the integrality test, exact over `ℚ`. -/
def mc_offset_distractor (ca : ℚ) (level variation : ℤ) (s : Rng) : ℚ :=
  let offset_type := pychoice [(-1 : ℚ), 1, -2, 2, -1/2, 1/2, -1/10, 1/10] (s 0)
  let offset_val := (randint 1 (variation + level.fdiv 5) (s 1) : ℤ) * offset_type
  if |offset_val| < 1 then
    let d := ca + offset_val
    if ¬((pyround d : ℚ) = d) then pyround1 d else (pyround d : ℚ)
  else ca + (pyround offset_val : ℚ)

/-- The first candidate loop of `generate_mc_options` (up to 20 attempts
while the option set has fewer than 4 members), collecting signed-offset
distractors, each rejected when negative while the correct answer is not.
Each attempt consumes two draws. -/
def mc_offset_loop (ca : ℚ) (level variation : ℤ) : ℕ → List ℚ → Rng → List ℚ
  | 0, options, _ => options
  | n + 1, options, s =>
    if options.length < 4 then
      let distractor := mc_offset_distractor ca level variation s
      let options := if 0 ≤ distractor ∨ ca < 0 then setAdd options distractor else options
      mc_offset_loop ca level variation n options (rdrop s 2)
    else options

/-- The distractor value computed by one iteration of the top-up loop of
`generate_mc_options`: `base ± small` or `base` times 2, 3 or 0.5, the
product rounded since the correct answer is an int. -/
def mc_additional_distractor (base : ℚ) (s : Rng) : ℚ :=
  let op_choice := pychoice ["add", "sub", "mul"] (s 0)
  let val_offset := ((randint 1 5 (s 1) : ℤ) : ℚ)
  if op_choice = "add" then base + val_offset
  else if op_choice = "sub" then base - val_offset
  else (pyround (base * pychoice [(2 : ℚ), 3, 1/2] (s 2)) : ℚ)

/-- The top-up loop of `generate_mc_options` (`additional_attempts < 20`).
Each attempt consumes three draws (the `add`/`sub` arms of the source draw
one fewer; the model advances the stream uniformly). -/
def mc_additional_loop (ca base : ℚ) : ℕ → List ℚ → Rng → List ℚ
  | 0, options, _ => options
  | n + 1, options, s =>
    if options.length < 4 then
      let distractor := mc_additional_distractor base s
      let options := if 0 ≤ distractor ∨ ca < 0 then setAdd options distractor else options
      mc_additional_loop ca base n options (rdrop s 3)
    else options

/-- The deterministic safety loop of `generate_mc_options`
(`safety_break < 20`): append `correct ± idx` for growing `idx`, skipping
present or sign-rejected values, with a mid-loop exit at exactly 4. -/
def mc_safety_loop (ca : ℚ) : ℕ → ℤ → List ℚ → List ℚ
  | 0, _, l => l
  | n + 1, idx, l =>
    if l.length < 4 then
      let vp := ca + (idx : ℚ)
      let vm := ca - (idx : ℚ)
      let l := if vp ∉ l ∧ (0 ≤ vp ∨ ca < 0) then l ++ [vp] else l
      if l.length = 4 then l
      else
        let l := if vm ∉ l ∧ (0 ≤ vm ∨ ca < 0) then l ++ [vm] else l
        mc_safety_loop ca n (idx + 1) l
    else l

/-- The final `while len(final_options) < 4` loop of `generate_mc_options`:
append `last_resort_val + randint(1, 5)` and deduplicate until 4 values
exist.  The Python loop is unbounded (it terminates with probability 1);
the model runs it on fuel and returns `none` when the fuel ends first. -/
def mc_last_resort (last_resort_val : ℚ) : ℕ → List ℚ → Rng → Option (List ℚ)
  | 0, l, _ => if l.length < 4 then none else some l
  | n + 1, l, s =>
    if l.length < 4 then
      mc_last_resort last_resort_val n
        (pydedup (l ++ [last_resort_val + (randint 1 5 (s 0) : ℚ)])) (rdrop s 1)
    else some l

/-- The opening of `generate_mc_options`, producing the option set after the
first candidate loop: the `correct_answer == 1` special branch (fixed menu,
shuffled, taken while fewer than 4 members) or the variation clamping and
the signed-offset loop.  Returns the option set (as a list seeded with the
correct answer) and the advanced random source. -/
def mc_initial_candidates (tier : String) (correct_answer : ℤ) (level : ℤ) (s : Rng) :
    List ℚ × Rng :=
  let ca : ℚ := (correct_answer : ℚ)
  let options0 : List ℚ := [ca]
  let params := get_difficulty_params tier level
  if ca = 1 then
    let possible0 : List ℚ := [0, 2, 3, ca * 2, ca + ((randint 1 3 (s 0) : ℤ) : ℚ)]
    let possible1 := if ca * 10 ≤ 20 then possible0 ++ [ca * 10] else possible0
    let shuffled := pyshuffle possible1.length possible1 (rdrop s 1)
    (shuffled.foldl (fun acc d => if acc.length < 4 then setAdd acc d else acc) options0,
      rdrop s (1 + possible1.length))
  else
    let variation0 := max 1 (pyint (ca * (1 / 10)))
    let variation1 := min variation0 (params.range.2.fdiv 10)
    let variation2 := if variation1 = 0 ∧ ¬ca = 0 then 1 else variation1
    let pick : ℤ × Rng :=
      if variation2 = 0 ∧ ca = 0 then (randint 1 5 (s 0), rdrop s 1) else (variation2, s)
    (mc_offset_loop ca level pick.1 20 options0 pick.2, rdrop pick.2 40)

/-- The `if correct_answer not in final_options` repair of
`generate_mc_options` (dead in practice: the option set always holds the
correct answer): pop a random member when already 4 long, then append the
correct answer. -/
def mc_correct_present_fix (ca : ℚ) (final0 : List ℚ) (s2 : Rng) : List ℚ × Rng :=
  if ca ∉ final0 then
    ((if 4 ≤ final0.length then final0.eraseIdx (s2 0 % final0.length) else final0) ++ [ca],
      rdrop s2 1)
  else (final0, s2)

/-- The candidate-collection prefix of `generate_mc_options(self,
correct_answer, level)`, up to but excluding the last-resort loop: the
initial candidates, the top-up loop, the dead not-present repair, the dedup
and the deterministic safety loop, following the source line by line.
Returns the candidate list and the advanced random source.  `tier` is the
stored self-assessment level consumed through `get_difficulty_params`. -/
def mc_candidate_phase (tier : String) (correct_answer : ℤ) (level : ℤ) (s : Rng) :
    List ℚ × Rng :=
  let ca : ℚ := (correct_answer : ℚ)
  let step1 := mc_initial_candidates tier correct_answer level s
  let base_num_for_distractors : ℚ := if ¬ca = 0 then ca else 1
  let options2 := mc_additional_loop ca base_num_for_distractors 20 step1.1 step1.2
  let s2 := rdrop step1.2 60
  let step2 := mc_correct_present_fix ca options2 s2
  let final1 := pydedup step2.1
  let final2 := mc_safety_loop ca 20 1 final1
  (final2, step2.2)

/-- `generate_mc_options(self, correct_answer, level)`, assembled from
`mc_candidate_phase` and the last-resort loop: compute the candidate list,
top it up to 4 with the last-resort loop, shuffle, and return the first 4. -/
def generate_mc_options (tier : String) (correct_answer : ℤ) (level : ℤ) (fuel : ℕ)
    (s : Rng) : Option (List ℚ) :=
  let ca : ℚ := (correct_answer : ℚ)
  let pre := mc_candidate_phase tier correct_answer level s
  let last_resort_val := pymax pre.1 ca + 10
  match mc_last_resort last_resort_val fuel pre.1 pre.2 with
  | none => none
  | some final3 => some ((pyshuffle final3.length final3 (rdrop pre.2 fuel)).take 4)


/-! ## Lemmas about the question generator -/

theorem division_attempt_once_spec (level : ℤ) (params : DifficultyParams) (s : Rng) :
    (division_attempt_once level params s).2.1 ≠ 0 ∧
      (division_attempt_once level params s).1 =
        (division_attempt_once level params s).2.1 *
          (division_attempt_once level params s).2.2 := by
  unfold division_attempt_once
  refine ⟨?_, rfl⟩
  dsimp only
  split <;> split <;> simp_all

theorem division_attempts_valid (level : ℤ) (params : DifficultyParams) (minVal maxVal : ℤ) :
    ∀ (n : ℕ) (s : Rng) (r : ℤ × ℤ × ℤ),
      division_attempts level params minVal maxVal n s = some r →
      r.2.1 ≠ 0 ∧ r.1 = r.2.1 * r.2.2 ∧ minVal ≤ r.1 ∧ r.1 ≤ maxVal := by
  intro n
  induction n with
  | zero => intro s r h; simp [division_attempts] at h
  | succ n ih =>
    intro s r h
    simp only [division_attempts] at h
    split at h
    · rename_i hin
      obtain rfl : division_attempt_once level params s = r := Option.some.inj h
      obtain ⟨h1, h2⟩ := division_attempt_once_spec level params s
      exact ⟨h1, h2, hin.1, hin.2⟩
    · exact ih _ _ h

theorem powers_attempt_op (level : ℤ) (s : Rng) (q : Question) :
    powers_attempt level s = some q → q.op_type = "powers" := by
  intro h
  unfold powers_attempt at h
  dsimp only at h
  repeat' split at h
  all_goals first
    | exact Option.noConfusion h
    | (obtain rfl := Option.some.inj h; rfl)

theorem roots_attempt_op (level maxVal : ℤ) (s : Rng) (q : Question) :
    roots_attempt level maxVal s = some q → q.op_type = "roots" := by
  intro h
  unfold roots_attempt at h
  dsimp only at h
  repeat' split at h
  all_goals first
    | exact Option.noConfusion h
    | (obtain rfl := Option.some.inj h; rfl)

theorem percentages_attempt_op (level : ℤ) (s : Rng) (q : Question) :
    percentages_attempt level s = some q → q.op_type = "percentages" := by
  intro h
  unfold percentages_attempt at h
  dsimp only at h
  repeat' split at h
  all_goals first
    | exact Option.noConfusion h
    | (obtain rfl := Option.some.inj h; rfl)

set_option maxHeartbeats 1600000 in
theorem generated_division_valid (ops : String → Bool) (tier : String) :
    ∀ (fuel : ℕ) (level : ℤ) (chosen : Option String) (s : Rng) (q : Question),
      generate_question ops tier fuel level chosen s = some q →
      q.op_type = "division" →
      q.num2 ≠ 0 ∧ q.num1 = q.num2 * q.answer ∧
        (get_difficulty_params tier level).range.1 ≤ q.num1 ∧
        q.num1 ≤ (get_difficulty_params tier level).range.2 := by
  intro fuel
  induction fuel with
  | zero =>
    intro level chosen s q h _
    rw [generate_question] at h
    exact Option.noConfusion h
  | succ fuel ih =>
    intro level chosen s q h hop
    rw [generate_question] at h
    split at h
    · obtain rfl := Option.some.inj h; simp at hop
    · dsimp only at h
      split at h
      · obtain rfl := Option.some.inj h; simp [addition_question] at hop
      · split at h
        · obtain rfl := Option.some.inj h; simp [subtraction_question] at hop
        · split at h
          · obtain rfl := Option.some.inj h; simp [multiplication_question] at hop
          · split at h
            · split at h
              · rename_i r hr
                obtain rfl := Option.some.inj h
                exact division_attempts_valid level _ _ _ 100 _ _ hr
              · exact ih level _ _ q h hop
            · split at h
              · split at h
                · rename_i q0 hq0
                  obtain rfl := Option.some.inj h
                  exact absurd (hop ▸ powers_attempt_op _ _ _ hq0) (by simp)
                · exact ih level _ _ q h hop
              · split at h
                · split at h
                  · rename_i q0 hq0
                    obtain rfl := Option.some.inj h
                    exact absurd (hop ▸ roots_attempt_op _ _ _ _ hq0) (by simp)
                  · exact ih level _ _ q h hop
                · split at h
                  · split at h
                    · rename_i q0 hq0
                      obtain rfl := Option.some.inj h
                      exact absurd (hop ▸ percentages_attempt_op _ _ _ hq0) (by simp)
                    · exact ih level _ _ q h hop
                  · exact ih level _ _ q h hop

theorem division_exhaust_fallback (ops : String → Bool) (tier : String) (fuel : ℕ)
    (level : ℤ) (s : Rng) (hdiv : ops "division" = true)
    (hnone : division_attempts level (get_difficulty_params tier level)
      (get_difficulty_params tier level).range.1
      (get_difficulty_params tier level).range.2 100 s = none) :
    generate_question ops tier (fuel + 1) level (some "division") s =
      generate_question ops tier fuel level (some "addition") (rdrop s 200) := by
  have hmem : "division" ∈ enabledOps ops :=
    List.mem_filter.mpr ⟨by simp [operationOrder], hdiv⟩
  have hne : (enabledOps ops).isEmpty = false := by
    cases henum : enabledOps ops with
    | nil => rw [henum] at hmem; exact absurd hmem (List.not_mem_nil _)
    | cons a l => rfl
  have hcon : (enabledOps ops).contains "division" = true := by
    simpa using hmem
  rw [generate_question]
  simp only [hne, Bool.false_eq_true, if_false, Option.elim, hcon, if_true, hnone]
  simp

/-! ## Lemmas about the multiple-choice option generator -/

theorem setAdd_inv (ca x : ℚ) (l : List ℚ) (h : McInv ca l) (hlen : l.length < 4) :
    McInv ca (setAdd l x) := by
  obtain ⟨hnd, hmem, _⟩ := h
  unfold setAdd
  split
  · exact ⟨hnd, hmem, by omega⟩
  · rename_i hx
    refine ⟨?_, List.mem_append_left _ hmem, by simp; omega⟩
    simp [List.nodup_append, hnd, hx]

theorem mc_fold_inv (ca : ℚ) (ds : List ℚ) :
    ∀ l, McInv ca l →
      McInv ca (ds.foldl (fun acc d => if acc.length < 4 then setAdd acc d else acc) l) := by
  induction ds with
  | nil => intro l h; exact h
  | cons d ds ih =>
    intro l h
    simp only [List.foldl_cons]
    split
    · exact ih _ (setAdd_inv ca d l h (by assumption))
    · exact ih _ h

theorem mc_offset_loop_inv (ca : ℚ) (level variation : ℤ) :
    ∀ (n : ℕ) (l : List ℚ) (s : Rng), McInv ca l →
      McInv ca (mc_offset_loop ca level variation n l s) := by
  intro n
  induction n with
  | zero => intro l s h; exact h
  | succ n ih =>
    intro l s h
    rw [mc_offset_loop]
    split
    · rename_i hlen
      dsimp only
      split
      · exact ih _ _ (setAdd_inv ca _ l h hlen)
      · exact ih _ _ h
    · exact h

theorem mc_additional_loop_inv (ca base : ℚ) :
    ∀ (n : ℕ) (l : List ℚ) (s : Rng), McInv ca l →
      McInv ca (mc_additional_loop ca base n l s) := by
  intro n
  induction n with
  | zero => intro l s h; exact h
  | succ n ih =>
    intro l s h
    rw [mc_additional_loop]
    split
    · rename_i hlen
      dsimp only
      split
      · exact ih _ _ (setAdd_inv ca _ l h hlen)
      · exact ih _ _ h
    · exact h

theorem foldl_dedup_eq :
    ∀ (l acc : List ℚ), acc.Nodup → (∀ a ∈ acc, a ∉ l) → l.Nodup →
      l.foldl (fun acc x => if x ∈ acc then acc else acc ++ [x]) acc = acc ++ l := by
  intro l
  induction l with
  | nil => intro acc _ _ _; simp
  | cons x xs ih =>
    intro acc hacc hdisj hl
    simp only [List.foldl_cons]
    have hx : x ∉ acc := fun hmem => hdisj x hmem (List.mem_cons_self x xs)
    rw [if_neg hx]
    rw [ih (acc ++ [x]) (by simp [List.nodup_append, hacc, hx])
      (by
        intro a ha
        rcases List.mem_append.mp ha with ha' | ha'
        · exact fun hxs => hdisj a ha' (List.mem_cons_of_mem _ hxs)
        · obtain rfl : a = x := by simpa using ha'
          exact (List.nodup_cons.mp hl).1)
      (List.nodup_cons.mp hl).2]
    simp

theorem pydedup_eq_self (l : List ℚ) (h : l.Nodup) : pydedup l = l := by
  unfold pydedup
  rw [foldl_dedup_eq l [] (by simp) (by simp) h]
  simp

theorem pydedup_append_singleton (l : List ℚ) (x : ℚ) (h : l.Nodup) :
    pydedup (l ++ [x]) = setAdd l x := by
  unfold pydedup
  rw [List.foldl_append]
  have h1 : List.foldl (fun acc x => if x ∈ acc then acc else acc ++ [x]) [] l = l := by
    rw [foldl_dedup_eq l [] (by simp) (by simp) h]; simp
  rw [h1]
  simp [setAdd]

theorem mc_safety_loop_inv (ca : ℚ) :
    ∀ (n : ℕ) (idx : ℤ) (l : List ℚ), McInv ca l → McInv ca (mc_safety_loop ca n idx l) := by
  intro n
  induction n with
  | zero => intro idx l h; exact h
  | succ n ih =>
    intro idx l h
    rw [mc_safety_loop]
    split
    · rename_i hlen
      dsimp only
      set l1 := if ca + (idx : ℚ) ∉ l ∧ (0 ≤ ca + (idx : ℚ) ∨ ca < 0) then l ++ [ca + (idx : ℚ)]
        else l with hl1
      have h1 : McInv ca l1 ∧ l1.length ≤ l.length + 1 := by
        rw [hl1]
        split
        · rename_i hcond
          obtain ⟨hnd, hmem, _⟩ := h
          exact ⟨⟨by simp [List.nodup_append, hnd, hcond.1],
            List.mem_append_left _ hmem, by simp; omega⟩, by simp⟩
        · exact ⟨h, by omega⟩
      split
      · exact h1.1
      · rename_i hne4
        refine ih _ _ ?_
        split
        · rename_i hcond
          obtain ⟨hnd, hmem, hle⟩ := h1.1
          exact ⟨by simp [List.nodup_append, hnd, hcond.1],
            List.mem_append_left _ hmem, by simp; omega⟩
        · exact h1.1
    · exact h

theorem mc_last_resort_spec (ca v : ℚ) :
    ∀ (n : ℕ) (l : List ℚ) (s : Rng) (r : List ℚ), McInv ca l →
      mc_last_resort v n l s = some r → r.Nodup ∧ ca ∈ r ∧ r.length = 4 := by
  intro n
  induction n with
  | zero =>
    intro l s r h hr
    rw [mc_last_resort] at hr
    split at hr
    · exact Option.noConfusion hr
    · obtain rfl := Option.some.inj hr
      exact ⟨h.1, h.2.1, by have := h.2.2; omega⟩
  | succ n ih =>
    intro l s r h hr
    rw [mc_last_resort] at hr
    split at hr
    · rename_i hlen
      refine ih _ _ _ ?_ hr
      rw [pydedup_append_singleton _ _ h.1]
      exact setAdd_inv ca _ l h hlen
    · rename_i hlen
      obtain rfl := Option.some.inj hr
      exact ⟨h.1, h.2.1, by have := h.2.2; omega⟩

theorem pyshuffle_perm {α : Type} [DecidableEq α] :
    ∀ (n : ℕ) (l : List α) (s : Rng), (pyshuffle n l s).Perm l := by
  intro n
  induction n with
  | zero => intro l s; exact List.Perm.refl l
  | succ n ih =>
    intro l s
    match l with
    | [] => exact List.Perm.refl []
    | x :: xs =>
      rw [pyshuffle]
      have hy : (x :: xs).getD (s 0 % (x :: xs).length) x ∈ x :: xs := by
        have hlt : s 0 % (x :: xs).length < (x :: xs).length :=
          Nat.mod_lt _ (by simp)
        rw [List.getD_eq_getElem _ _ hlt]
        exact List.getElem_mem _
      exact ((ih _ _).cons _).trans (List.perm_cons_erase hy).symm

theorem mc_initial_candidates_inv (tier : String) (correct_answer level : ℤ) (s : Rng) :
    McInv (correct_answer : ℚ) (mc_initial_candidates tier correct_answer level s).1 := by
  have h0 : McInv (correct_answer : ℚ) [(correct_answer : ℚ)] :=
    ⟨List.nodup_singleton _, List.mem_singleton_self _, by simp⟩
  unfold mc_initial_candidates
  dsimp only
  split
  · exact mc_fold_inv _ _ _ h0
  · exact mc_offset_loop_inv _ _ _ _ _ _ h0

theorem mc_candidate_phase_inv (tier : String) (correct_answer level : ℤ) (s : Rng) :
    McInv (correct_answer : ℚ) (mc_candidate_phase tier correct_answer level s).1 := by
  unfold mc_candidate_phase
  dsimp only
  have h1 := mc_initial_candidates_inv tier correct_answer level s
  have h2 := mc_additional_loop_inv (correct_answer : ℚ)
    (if ¬(correct_answer : ℚ) = 0 then (correct_answer : ℚ) else 1) 20
    (mc_initial_candidates tier correct_answer level s).1
    (mc_initial_candidates tier correct_answer level s).2 h1
  have hfix : mc_correct_present_fix (correct_answer : ℚ)
      (mc_additional_loop (correct_answer : ℚ)
        (if ¬(correct_answer : ℚ) = 0 then (correct_answer : ℚ) else 1) 20
        (mc_initial_candidates tier correct_answer level s).1
        (mc_initial_candidates tier correct_answer level s).2)
      (rdrop (mc_initial_candidates tier correct_answer level s).2 60) =
      (mc_additional_loop (correct_answer : ℚ)
        (if ¬(correct_answer : ℚ) = 0 then (correct_answer : ℚ) else 1) 20
        (mc_initial_candidates tier correct_answer level s).1
        (mc_initial_candidates tier correct_answer level s).2,
       rdrop (mc_initial_candidates tier correct_answer level s).2 60) := by
    unfold mc_correct_present_fix
    rw [if_neg (not_not_intro h2.2.1)]
  rw [hfix]
  dsimp only
  rw [pydedup_eq_self _ h2.1]
  exact mc_safety_loop_inv _ _ _ _ h2

/-- C1: every list returned by `generate_mc_options(correct_answer, level)`
has exactly 4 elements, the elements are pairwise distinct, and exactly one
of them equals `correct_answer`. -/
theorem mc_options_four_distinct_with_correct (tier : String) (correct_answer level : ℤ)
    (fuel : ℕ) (s : Rng) (l : List ℚ)
    (h : generate_mc_options tier correct_answer level fuel s = some l) :
    l.length = 4 ∧ l.Nodup ∧ l.count ((correct_answer : ℚ)) = 1 := by
  unfold generate_mc_options at h
  dsimp only at h
  split at h
  · exact Option.noConfusion h
  · rename_i final3 hfin
    obtain rfl := Option.some.inj h
    obtain ⟨hnd, hmem, hlen⟩ :=
      mc_last_resort_spec (correct_answer : ℚ) _ fuel _ _ _
        (mc_candidate_phase_inv tier correct_answer level s) hfin
    have hperm := pyshuffle_perm final3.length final3
      (rdrop (mc_candidate_phase tier correct_answer level s).2 fuel)
    rw [List.take_of_length_le (by rw [hperm.length_eq]; omega)]
    refine ⟨by rw [hperm.length_eq, hlen], hperm.symm.nodup hnd, ?_⟩
    rw [hperm.count_eq]
    exact List.count_eq_one_of_mem hnd hmem

/-- Concrete instantiation of C1: the call at `correct_answer = 7`,
`level = 3` on the identity raw stream returns `mcOptionsEx`, which has the
guaranteed shape. -/
theorem mc_options_four_distinct_with_correct_witness :
    generate_mc_options "good" 7 3 10 (fun n => n) = some mcOptionsEx ∧
    mcOptionsEx.length = 4 ∧ mcOptionsEx.Nodup ∧ mcOptionsEx.count ((7 : ℤ) : ℚ) = 1 := by
  have h : generate_mc_options "good" 7 3 10 (fun n => n) = some mcOptionsEx := by
    with_unfolding_all rfl
  exact ⟨h, mc_options_four_distinct_with_correct "good" 7 3 10 (fun n => n) mcOptionsEx h⟩

/-! ## Claims about generate_question: sentinel, nontermination, division -/

/-- C9: when the set of enabled operations is empty, `generate_question`
returns the sentinel question with operation tag `"error"` and answer 0 and
does not raise, for every level, tier, forced operation and random stream. -/
theorem no_enabled_ops_sentinel (ops : String → Bool) (h : enabledOps ops = [])
    (tier : String) (fuel : ℕ) (level : ℤ) (chosen : Option String) (s : Rng) :
    generate_question ops tier (fuel + 1) level chosen s =
      some ⟨"No operations selected!", 0, "error", 0, 0, (0, 0, "error")⟩ := by
  rw [generate_question]
  simp [h]

/-- Concrete instantiation of C9 at level 5 with every operation disabled. -/
theorem no_enabled_ops_sentinel_witness :
    generate_question (fun _ => false) "good" (0 + 1) 5 none (fun _ => 0) =
      some ⟨"No operations selected!", 0, "error", 0, 0, (0, 0, "error")⟩ :=
  no_enabled_ops_sentinel (fun _ => false) rfl "good" 0 5 none (fun _ => 0)

/-- C2 (refuted, code bug): with only `roots` enabled at level 5 (below the
roots unlock floor of 15), `generate_question` never returns: for every
recursion budget `fuel` and every random stream the fueled model still
answers `none`, i.e. the Python recursion `generate_question ->
generate_question` has no bound and CPython raises `RecursionError` instead
of returning a question. -/
theorem roots_only_generation_never_returns (tier : String) :
    ∀ (fuel : ℕ) (chosen : Option String) (s : Rng),
      generate_question rootsOnly tier fuel 5 chosen s = none := by
  intro fuel
  induction fuel with
  | zero => intro chosen s; rw [generate_question]
  | succ fuel ih =>
    intro chosen s
    have henabled : enabledOps rootsOnly = ["roots"] := rfl
    rw [generate_question]
    simp only [henabled, List.isEmpty_cons, Bool.false_eq_true, if_false]
    have hpc : ∀ r : ℕ, pychoice ["roots"] r = "roots" := by
      intro r; simp [pychoice, Nat.mod_one]
    rcases chosen with _ | c
    · simp only [Option.elim, hpc]
      norm_num
      exact ih _ _
    · by_cases hc : c = "roots"
      · subst hc
        simp only [Option.elim, List.contains_cons, hpc]
        norm_num
        exact ih _ _
      · simp only [Option.elim, List.contains_cons, hpc]
        have hbeq : (c == "roots") = false := by simpa using hc
        simp only [hbeq]
        norm_num
        exact ih _ _

/-- C3: every question returned by `generate_question` whose operation tag
is `"division"` has a nonzero divisor, an exactly divisible dividend
(`num1 = num2 * answer`), and a dividend inside the resolved value range;
and when the 100-attempt division loop exhausts, the generator regenerates
with the operation forced to `"addition"` on the remaining stream instead of
returning an invalid division. -/
theorem division_questions_exact :
    (∀ (ops : String → Bool) (tier : String) (fuel : ℕ) (level : ℤ) (chosen : Option String)
      (s : Rng) (q : Question),
      generate_question ops tier fuel level chosen s = some q →
      q.op_type = "division" →
      q.num2 ≠ 0 ∧ q.num1 = q.num2 * q.answer ∧
        (get_difficulty_params tier level).range.1 ≤ q.num1 ∧
        q.num1 ≤ (get_difficulty_params tier level).range.2) ∧
    (∀ (ops : String → Bool) (tier : String) (fuel : ℕ) (level : ℤ) (s : Rng),
      ops "division" = true →
      division_attempts level (get_difficulty_params tier level)
        (get_difficulty_params tier level).range.1
        (get_difficulty_params tier level).range.2 100 s = none →
      generate_question ops tier (fuel + 1) level (some "division") s =
        generate_question ops tier fuel level (some "addition") (rdrop s 200)) :=
  ⟨fun ops tier fuel level chosen s q h hop =>
    generated_division_valid ops tier fuel level chosen s q h hop,
   fun ops tier fuel level s hdiv hnone =>
    division_exhaust_fallback ops tier fuel level s hdiv hnone⟩

set_option maxRecDepth 100000 in
/-- Concrete instantiation of C3: a generated division question (7 divided
by 7 at level 5) is exact and in range, and at level 1 on a constant raw
stream the 100-attempt loop exhausts and the generator falls back to a
forced addition. -/
theorem division_questions_exact_witness :

    generate_question defaultOperations "good" 10 5 (some "division") (fun n => n * 13 + 5) =
      some divisionQuestionEx ∧
    divisionQuestionEx.num2 ≠ 0 ∧
    divisionQuestionEx.num1 = divisionQuestionEx.num2 * divisionQuestionEx.answer ∧
    (get_difficulty_params "good" 5).range.1 ≤ divisionQuestionEx.num1 ∧
    divisionQuestionEx.num1 ≤ (get_difficulty_params "good" 5).range.2 ∧
    generate_question defaultOperations "good" (3 + 1) 1 (some "division") (fun _ => 13) =
      generate_question defaultOperations "good" 3 1 (some "addition")
        (rdrop (fun _ => 13) 200) := by
  have h : generate_question defaultOperations "good" 10 5 (some "division")
      (fun n => n * 13 + 5) = some divisionQuestionEx := by
    with_unfolding_all rfl
  have hv := division_questions_exact.1 defaultOperations "good" 10 5 (some "division")
    (fun n => n * 13 + 5) divisionQuestionEx h rfl
  have hnone : division_attempts 1 (get_difficulty_params "good" 1)
      (get_difficulty_params "good" 1).range.1
      (get_difficulty_params "good" 1).range.2 100 (fun _ => 13) = none := by
    with_unfolding_all rfl
  exact ⟨h, hv.1, hv.2.1, hv.2.2.1, hv.2.2.2,
    division_questions_exact.2 defaultOperations "good" 3 1 (fun _ => 13) rfl hnone⟩

/-! ## Lemmas and claims about the retry queues -/

theorem wrong_queue_update_nodup (l : List WrongEntry) (raw : ℤ × ℤ × String) (ansv : ℤ)
    (op : String) (h : (l.map wrongKey).Nodup) :
    ((wrong_queue_update l raw ansv op).map wrongKey).Nodup := by
  unfold wrong_queue_update
  dsimp only
  split
  · rename_i hcond
    have hany : (l.any fun item => item.raw_q == raw && item.op_type == op) = false := by
      rcases Bool.eq_false_or_eq_true (l.any fun item => item.raw_q == raw && item.op_type == op)
        with hb | hb
      · exact absurd hb hcond.1
      · exact hb
    rw [List.map_append]
    simp only [List.map_cons, List.map_nil]
    rw [List.nodup_append]
    refine ⟨h, List.nodup_singleton _, ?_⟩
    intro k hk
    simp only [List.mem_map] at hk
    obtain ⟨e, he, rfl⟩ := hk
    have hfalse := List.any_eq_false.mp hany e he
    simp only [Bool.and_eq_true, beq_iff_eq, not_and] at hfalse
    simp only [List.mem_singleton, wrongKey]
    intro habs
    exact hfalse (congrArg Prod.fst habs) (congrArg Prod.snd habs)
  · exact h

theorem wrong_queue_update_length (l : List WrongEntry) (raw : ℤ × ℤ × String) (ansv : ℤ)
    (op : String) (h : l.length ≤ 30) :
    (wrong_queue_update l raw ansv op).length ≤ 30 := by
  unfold wrong_queue_update
  dsimp only
  split
  · rename_i hcond; simp; omega
  · exact h

theorem wrong_queue_update_already (l : List WrongEntry) (raw : ℤ × ℤ × String) (ansv : ℤ)
    (op : String) (h : (l.any fun item => item.raw_q == raw && item.op_type == op) = true) :
    wrong_queue_update l raw ansv op = l := by
  unfold wrong_queue_update
  dsimp only
  rw [if_neg]
  intro hcond
  exact hcond.1 h

theorem wrong_queue_update_full (l : List WrongEntry) (raw : ℤ × ℤ × String) (ansv : ℤ)
    (op : String) (h : l.length = 30) :
    wrong_queue_update l raw ansv op = l := by
  unfold wrong_queue_update
  dsimp only
  rw [if_neg]
  intro hcond
  omega

theorem wrong_queue_update_superset (l : List WrongEntry) (raw : ℤ × ℤ × String) (ansv : ℤ)
    (op : String) (e : WrongEntry) (he : e ∈ l) : e ∈ wrong_queue_update l raw ansv op := by
  unfold wrong_queue_update
  dsimp only
  split
  · exact List.mem_append_left _ he
  · exact he

theorem slow_queue_update_nodup (l : List SlowEntry) (stat : OpStat) (raw : ℤ × ℤ × String)
    (ansv : ℤ) (op : String) (t : ℚ) (h : (l.map slowKey).Nodup) :
    ((slow_queue_update l stat raw ansv op t).map slowKey).Nodup := by
  unfold slow_queue_update
  dsimp only
  split
  · split
    · split
      · rename_i hcond
        have hany : (l.any fun item => item.raw_q == raw && item.op_type == op) = false := by
          rcases Bool.eq_false_or_eq_true (l.any fun item => item.raw_q == raw && item.op_type == op)
            with hb | hb
          · exact absurd hb hcond.1
          · exact hb
        rw [List.map_append]
        simp only [List.map_cons, List.map_nil]
        rw [List.nodup_append]
        refine ⟨h, List.nodup_singleton _, ?_⟩
        intro k hk
        simp only [List.mem_map] at hk
        obtain ⟨e, he, rfl⟩ := hk
        have hfalse := List.any_eq_false.mp hany e he
        simp only [Bool.and_eq_true, beq_iff_eq, not_and] at hfalse
        simp only [List.mem_singleton, slowKey]
        intro habs
        exact hfalse (congrArg Prod.fst habs) (congrArg Prod.snd habs)
      · exact h
    · exact h
  · exact h

theorem slow_queue_update_length (l : List SlowEntry) (stat : OpStat) (raw : ℤ × ℤ × String)
    (ansv : ℤ) (op : String) (t : ℚ) (h : l.length ≤ 20) :
    (slow_queue_update l stat raw ansv op t).length ≤ 20 := by
  unfold slow_queue_update
  dsimp only
  split
  · split
    · split
      · rename_i hcond; simp; omega
      · exact h
    · exact h
  · exact h

theorem slow_queue_update_already (l : List SlowEntry) (stat : OpStat) (raw : ℤ × ℤ × String)
    (ansv : ℤ) (op : String) (t : ℚ)
    (h : (l.any fun item => item.raw_q == raw && item.op_type == op) = true) :
    slow_queue_update l stat raw ansv op t = l := by
  unfold slow_queue_update
  dsimp only
  split
  · split
    · rw [if_neg]
      intro hcond
      exact hcond.1 h
    · rfl
  · rfl

theorem slow_queue_update_full (l : List SlowEntry) (stat : OpStat) (raw : ℤ × ℤ × String)
    (ansv : ℤ) (op : String) (t : ℚ) (h : l.length = 20) :
    slow_queue_update l stat raw ansv op t = l := by
  unfold slow_queue_update
  dsimp only
  split
  · split
    · rw [if_neg]
      intro hcond
      omega
    · rfl
  · rfl

theorem record_answer_stats_wrong (st : TrainerState) (q : Question) (c : Bool) (t : ℚ) :
    (record_answer_stats st q c t).persistently_wrong_questions =
      if c = true then st.persistently_wrong_questions
      else wrong_queue_update st.persistently_wrong_questions q.raw_question q.answer
        q.op_type := by
  cases c <;> rfl

theorem record_answer_stats_slow (st : TrainerState) (q : Question) (c : Bool) (t : ℚ) :
    (record_answer_stats st q c t).persistently_slow_questions =
      if c = true then
        slow_queue_update st.persistently_slow_questions
          { st.operation_stats q.op_type with
              correct := (st.operation_stats q.op_type).correct + 1 }
          q.raw_question q.answer q.op_type t
      else st.persistently_slow_questions := by
  cases c
  · rfl
  · simp only [record_answer_stats, record_correct_answer]
    simp

theorem record_answer_stats_flags (st : TrainerState) (q : Question) (c : Bool) (t : ℚ) :
    (record_answer_stats st q c t).game_active = st.game_active ∧
    (record_answer_stats st q c t).practice_active = st.practice_active ∧
    (record_answer_stats st q c t).current_practice_type = st.current_practice_type := by
  cases c <;> exact ⟨rfl, rfl, rfl⟩

theorem answer_mode_effects_queues_game (st1 : TrainerState) (q : Question) (c : Bool)
    (hg : st1.game_active = true) :
    (answer_mode_effects st1 q c).persistently_wrong_questions =
        st1.persistently_wrong_questions ∧
      (answer_mode_effects st1 q c).persistently_slow_questions =
        st1.persistently_slow_questions ∧
      (answer_mode_effects st1 q c).operation_stats = st1.operation_stats := by
  unfold answer_mode_effects
  rw [if_pos hg]
  exact ⟨rfl, rfl, rfl⟩

theorem answer_mode_effects_inactive (st1 : TrainerState) (q : Question) (c : Bool)
    (hg : st1.game_active = false) (hp : st1.practice_active = false) :
    answer_mode_effects st1 q c = st1 := by
  unfold answer_mode_effects
  rw [if_neg (by rw [hg]; exact Bool.false_ne_true), if_neg (by rw [hp]; exact Bool.false_ne_true)]

theorem answer_mode_effects_wrong_practice (st1 : TrainerState) (q : Question) (c : Bool)
    (hg : st1.game_active = false) (hp : st1.practice_active = true) :
    (answer_mode_effects st1 q c).persistently_wrong_questions =
      if st1.current_practice_type == some "wrong_ones" && c then
        remove_matching_wrong st1.persistently_wrong_questions q.raw_question q.op_type
      else st1.persistently_wrong_questions := by
  unfold answer_mode_effects
  rw [if_neg (by rw [hg]; exact Bool.false_ne_true), if_pos hp]
  dsimp only
  split
  · rfl
  · split <;> rfl

theorem answer_mode_effects_slow_practice (st1 : TrainerState) (q : Question) (c : Bool)
    (hg : st1.game_active = false) (hp : st1.practice_active = true) :
    (answer_mode_effects st1 q c).persistently_slow_questions =
      if st1.current_practice_type == some "slow_ones" then
        remove_matching_slow st1.persistently_slow_questions q.raw_question q.op_type
      else st1.persistently_slow_questions := by
  unfold answer_mode_effects
  rw [if_neg (by rw [hg]; exact Bool.false_ne_true), if_pos hp]
  dsimp only
  split
  · rename_i hcond
    have hty : st1.current_practice_type = some "wrong_ones" := by
      have := (Bool.and_eq_true _ _).mp hcond
      simpa using this.1
    have hslow : (st1.current_practice_type == some "slow_ones") = false := by
      rw [hty]; rfl
    simp only [hslow, Bool.false_eq_true, if_false]
  · split <;> rfl

theorem process_wrong_game (st : TrainerState) (q : Question) (c : Bool) (t : ℚ)
    (hg : st.game_active = true) :
    (process_answer_result st q c t).persistently_wrong_questions =
      if c = true then st.persistently_wrong_questions
      else wrong_queue_update st.persistently_wrong_questions q.raw_question q.answer
        q.op_type := by
  unfold process_answer_result
  rw [if_pos (by rw [hg]; rfl)]
  rw [(answer_mode_effects_queues_game _ q c (by
    rw [(record_answer_stats_flags st q c t).1]; exact hg)).1]
  exact record_answer_stats_wrong st q c t

theorem process_slow_game (st : TrainerState) (q : Question) (c : Bool) (t : ℚ)
    (hg : st.game_active = true) :
    (process_answer_result st q c t).persistently_slow_questions =
      if c = true then
        slow_queue_update st.persistently_slow_questions
          { st.operation_stats q.op_type with
              correct := (st.operation_stats q.op_type).correct + 1 }
          q.raw_question q.answer q.op_type t
      else st.persistently_slow_questions := by
  unfold process_answer_result
  rw [if_pos (by rw [hg]; rfl)]
  rw [(answer_mode_effects_queues_game _ q c (by
    rw [(record_answer_stats_flags st q c t).1]; exact hg)).2.1]
  exact record_answer_stats_slow st q c t

theorem process_wrong_practice (st : TrainerState) (q : Question) (c : Bool) (t : ℚ)
    (hg : st.game_active = false) (hp : st.practice_active = true) :
    (process_answer_result st q c t).persistently_wrong_questions =
      if st.current_practice_type == some "wrong_ones" && c then
        remove_matching_wrong st.persistently_wrong_questions q.raw_question q.op_type
      else if c = true then st.persistently_wrong_questions
      else wrong_queue_update st.persistently_wrong_questions q.raw_question q.answer
        q.op_type := by
  unfold process_answer_result
  rw [if_pos (by rw [hp]; simp)]
  obtain ⟨hfg, hfp, hft⟩ := record_answer_stats_flags st q c t
  rw [answer_mode_effects_wrong_practice _ q c (by rw [hfg]; exact hg) (by rw [hfp]; exact hp)]
  rw [hft, record_answer_stats_wrong st q c t]
  by_cases hcond : (st.current_practice_type == some "wrong_ones" && c) = true
  · rw [if_pos hcond, if_pos hcond]
    have hc : c = true := by
      have := (Bool.and_eq_true _ _).mp hcond
      exact this.2
    rw [if_pos hc]
  · rw [if_neg hcond, if_neg hcond]

theorem process_slow_practice (st : TrainerState) (q : Question) (c : Bool) (t : ℚ)
    (hg : st.game_active = false) (hp : st.practice_active = true) :
    (process_answer_result st q c t).persistently_slow_questions =
      if st.current_practice_type == some "slow_ones" then
        remove_matching_slow
          (if c = true then
            slow_queue_update st.persistently_slow_questions
              { st.operation_stats q.op_type with
                  correct := (st.operation_stats q.op_type).correct + 1 }
              q.raw_question q.answer q.op_type t
          else st.persistently_slow_questions) q.raw_question q.op_type
      else if c = true then
        slow_queue_update st.persistently_slow_questions
          { st.operation_stats q.op_type with
              correct := (st.operation_stats q.op_type).correct + 1 }
          q.raw_question q.answer q.op_type t
      else st.persistently_slow_questions := by
  unfold process_answer_result
  rw [if_pos (by rw [hp]; simp)]
  obtain ⟨hfg, hfp, hft⟩ := record_answer_stats_flags st q c t
  rw [answer_mode_effects_slow_practice _ q c (by rw [hfg]; exact hg) (by rw [hfp]; exact hp)]
  rw [hft, record_answer_stats_slow st q c t]

theorem process_inactive (st : TrainerState) (q : Question) (c : Bool) (t : ℚ)
    (hg : st.game_active = false) (hp : st.practice_active = false) :
    process_answer_result st q c t = st := by
  unfold process_answer_result
  rw [if_neg (by rw [hg, hp]; simp)]
  exact answer_mode_effects_inactive st q c hg hp

theorem remove_matching_wrong_nodup (l : List WrongEntry) (raw : ℤ × ℤ × String) (op : String)
    (h : (l.map wrongKey).Nodup) :
    ((remove_matching_wrong l raw op).map wrongKey).Nodup :=
  ((List.filter_sublist l).map wrongKey).nodup h

theorem remove_matching_slow_nodup (l : List SlowEntry) (raw : ℤ × ℤ × String) (op : String)
    (h : (l.map slowKey).Nodup) :
    ((remove_matching_slow l raw op).map slowKey).Nodup :=
  ((List.filter_sublist l).map slowKey).nodup h

theorem remove_matching_slow_update (l : List SlowEntry) (stat : OpStat)
    (raw : ℤ × ℤ × String) (ansv : ℤ) (op : String) (t : ℚ) :
    remove_matching_slow (slow_queue_update l stat raw ansv op t) raw op =
      remove_matching_slow l raw op := by
  unfold slow_queue_update
  dsimp only
  split
  · split
    · split
      · unfold remove_matching_slow
        rw [List.filter_append]
        simp
      · rfl
    · rfl
  · rfl

theorem remove_matching_wrong_no_match (l : List WrongEntry) (raw : ℤ × ℤ × String)
    (op : String) (e : WrongEntry) (he : e ∈ remove_matching_wrong l raw op) :
    ¬(e.raw_q = raw ∧ e.op_type = op) := by
  unfold remove_matching_wrong at he
  have h2 := (List.mem_filter.mp he).2
  intro habs
  rw [habs.1, habs.2] at h2
  simp at h2

/-- C5: after any `process_answer_result` call the retry queues keep their
invariant (no two entries of a queue share `(canonical_form, operation)`;
the wrong queue holds at most 30 entries and the slow queue at most 20),
and in game mode: recording an incorrect answer for a question already in
the wrong queue, or at the 30-entry cap, leaves the wrong-queue length
unchanged, and the corresponding statements hold for a correct slow answer
and the 20-entry slow cap. -/
theorem retry_queue_dedup_and_cap (st : TrainerState) (q : Question) (c : Bool) (t : ℚ) :
    (((st.persistently_wrong_questions.map wrongKey).Nodup →
        ((process_answer_result st q c t).persistently_wrong_questions.map wrongKey).Nodup) ∧
      ((st.persistently_slow_questions.map slowKey).Nodup →
        ((process_answer_result st q c t).persistently_slow_questions.map slowKey).Nodup)) ∧
    ((st.persistently_wrong_questions.length ≤ 30 →
        (process_answer_result st q c t).persistently_wrong_questions.length ≤ 30) ∧
      (st.persistently_slow_questions.length ≤ 20 →
        (process_answer_result st q c t).persistently_slow_questions.length ≤ 20)) ∧
    (st.game_active = true → c = false →
      (st.persistently_wrong_questions.any fun e =>
        e.raw_q == q.raw_question && e.op_type == q.op_type) = true →
      (process_answer_result st q c t).persistently_wrong_questions.length =
        st.persistently_wrong_questions.length) ∧
    (st.game_active = true → c = false → st.persistently_wrong_questions.length = 30 →
      (process_answer_result st q c t).persistently_wrong_questions.length = 30) ∧
    (st.game_active = true → c = true →
      (st.persistently_slow_questions.any fun e =>
        e.raw_q == q.raw_question && e.op_type == q.op_type) = true →
      (process_answer_result st q c t).persistently_slow_questions.length =
        st.persistently_slow_questions.length) ∧
    (st.game_active = true → c = true → st.persistently_slow_questions.length = 20 →
      (process_answer_result st q c t).persistently_slow_questions.length = 20) := by
  refine ⟨⟨?_, ?_⟩, ⟨?_, ?_⟩, ?_, ?_, ?_, ?_⟩
  · -- wrong keys stay nodup
    intro h
    cases hg : st.game_active
    · cases hp : st.practice_active
      · rw [process_inactive st q c t hg hp]; exact h
      · rw [process_wrong_practice st q c t hg hp]
        split
        · exact remove_matching_wrong_nodup _ _ _ h
        · split
          · exact h
          · exact wrong_queue_update_nodup _ _ _ _ h
    · rw [process_wrong_game st q c t hg]
      split
      · exact h
      · exact wrong_queue_update_nodup _ _ _ _ h
  · -- slow keys stay nodup
    intro h
    cases hg : st.game_active
    · cases hp : st.practice_active
      · rw [process_inactive st q c t hg hp]; exact h
      · rw [process_slow_practice st q c t hg hp]
        split
        · refine remove_matching_slow_nodup _ _ _ ?_
          split
          · exact slow_queue_update_nodup _ _ _ _ _ _ h
          · exact h
        · split
          · exact slow_queue_update_nodup _ _ _ _ _ _ h
          · exact h
    · rw [process_slow_game st q c t hg]
      split
      · exact slow_queue_update_nodup _ _ _ _ _ _ h
      · exact h
  · -- wrong cap
    intro h
    cases hg : st.game_active
    · cases hp : st.practice_active
      · rw [process_inactive st q c t hg hp]; exact h
      · rw [process_wrong_practice st q c t hg hp]
        split
        · exact le_trans (List.length_filter_le _ _) h
        · split
          · exact h
          · exact wrong_queue_update_length _ _ _ _ h
    · rw [process_wrong_game st q c t hg]
      split
      · exact h
      · exact wrong_queue_update_length _ _ _ _ h
  · -- slow cap
    intro h
    cases hg : st.game_active
    · cases hp : st.practice_active
      · rw [process_inactive st q c t hg hp]; exact h
      · rw [process_slow_practice st q c t hg hp]
        split
        · refine le_trans (List.length_filter_le _ _) ?_
          split
          · exact slow_queue_update_length _ _ _ _ _ _ h
          · exact h
        · split
          · exact slow_queue_update_length _ _ _ _ _ _ h
          · exact h
    · rw [process_slow_game st q c t hg]
      split
      · exact slow_queue_update_length _ _ _ _ _ _ h
      · exact h
  · -- already-present wrong question, incorrect, game mode
    intro hg hc hany
    rw [process_wrong_game st q c t hg, hc]
    simp only [Bool.false_eq_true, if_false]
    rw [wrong_queue_update_already _ _ _ _ hany]
  · -- 31st distinct wrong question at cap, game mode
    intro hg hc hlen
    rw [process_wrong_game st q c t hg, hc]
    simp only [Bool.false_eq_true, if_false]
    rw [wrong_queue_update_full _ _ _ _ hlen, hlen]
  · -- already-present slow question, correct, game mode
    intro hg hc hany
    rw [process_slow_game st q c t hg, hc]
    simp only [if_true]
    rw [slow_queue_update_already _ _ _ _ _ _ hany]
  · -- 21st distinct slow question at cap, game mode
    intro hg hc hlen
    rw [process_slow_game st q c t hg, hc]
    simp only [if_true]
    rw [slow_queue_update_full _ _ _ _ _ _ hlen, hlen]

/-- C4 as amended: during a retry-focused practice session, in `wrong_ones`
practice the matching wrong-queue entry is removed exactly when the answer
is correct (an incorrect re-attempt leaves every previous entry in place),
but in `slow_ones` practice the matching slow-queue entry is removed on any
re-attempt, correct or incorrect. -/
theorem retry_removal_by_mode (st : TrainerState) (q : Question) (c : Bool) (t : ℚ)
    (hp : st.practice_active = true) (hg : st.game_active = false) :
    (st.current_practice_type = some "wrong_ones" →
      (c = true → ∀ e ∈ (process_answer_result st q c t).persistently_wrong_questions,
        ¬(e.raw_q = q.raw_question ∧ e.op_type = q.op_type)) ∧
      (c = false → ∀ e ∈ st.persistently_wrong_questions,
        e ∈ (process_answer_result st q c t).persistently_wrong_questions)) ∧
    (st.current_practice_type = some "slow_ones" →
      (process_answer_result st q c t).persistently_slow_questions =
        remove_matching_slow st.persistently_slow_questions q.raw_question q.op_type) := by
  constructor
  · intro hty
    constructor
    · intro hc e he
      rw [process_wrong_practice st q c t hg hp, hty, hc] at he
      simp only [if_pos] at he
      exact remove_matching_wrong_no_match _ _ _ e (by simpa using he)
    · intro hc e he
      rw [process_wrong_practice st q c t hg hp, hty, hc]
      simp only [Bool.and_false, Bool.false_eq_true, if_false]
      exact wrong_queue_update_superset _ _ _ _ e he
  · intro hty
    rw [process_slow_practice st q c t hg hp, hty]
    simp only [beq_self_eq_true, if_true]
    cases c
    · simp
    · simp only [if_pos]
      rw [remove_matching_slow_update]

/-- Counterexample to C4 as stated: in a `slow_ones` practice session the
queue entry is removed even though the re-attempt was answered
incorrectly (the claim says an incorrect re-attempt leaves the entry in its
queue). -/
theorem retry_removal_counterexample :
    stateEx.persistently_slow_questions = [slowEntryEx] ∧
    (process_answer_result stateEx questionEx false 1).persistently_slow_questions = [] :=
  ⟨rfl, rfl⟩

/-! ## Running average, XP rollover, difficulty range, session history -/

theorem record_answer_stats_stat (st : TrainerState) (q : Question) (c : Bool) (t : ℚ) :
    ((record_answer_stats st q c t).operation_stats q.op_type).total_answered_for_avg =
      (st.operation_stats q.op_type).total_answered_for_avg + 1 ∧
    ((record_answer_stats st q c t).operation_stats q.op_type).avg_time =
      ((st.operation_stats q.op_type).avg_time *
          ((st.operation_stats q.op_type).total_answered_for_avg : ℚ) + t) /
        (((st.operation_stats q.op_type).total_answered_for_avg + 1 : ℤ) : ℚ) := by
  cases c <;>
    simp [record_answer_stats, record_correct_answer, record_incorrect_answer, avg_time_update]

theorem answer_mode_effects_stats (st1 : TrainerState) (q : Question) (c : Bool) :
    (answer_mode_effects st1 q c).operation_stats = st1.operation_stats := by
  unfold answer_mode_effects
  split
  · rfl
  · split
    · dsimp only
      split
      · rfl
      · split <;> rfl
    · rfl

theorem answer_mode_effects_flags (st1 : TrainerState) (q : Question) (c : Bool) :
    (answer_mode_effects st1 q c).game_active = st1.game_active ∧
    (answer_mode_effects st1 q c).practice_active = st1.practice_active := by
  unfold answer_mode_effects
  split
  · exact ⟨rfl, rfl⟩
  · split
    · dsimp only
      split
      · exact ⟨rfl, rfl⟩
      · split <;> exact ⟨rfl, rfl⟩
    · exact ⟨rfl, rfl⟩

theorem process_answer_result_flags (st : TrainerState) (q : Question) (c : Bool) (t : ℚ) :
    (process_answer_result st q c t).game_active = st.game_active ∧
    (process_answer_result st q c t).practice_active = st.practice_active := by
  unfold process_answer_result
  split
  · obtain ⟨h1, h2⟩ := answer_mode_effects_flags (record_answer_stats st q c t) q c
    obtain ⟨h3, h4, _⟩ := record_answer_stats_flags st q c t
    exact ⟨h1.trans h3, h2.trans h4⟩
  · exact answer_mode_effects_flags st q c

theorem process_answer_result_stat (st : TrainerState) (q : Question) (c : Bool) (t : ℚ)
    (hact : st.game_active = true ∨ st.practice_active = true) :
    ((process_answer_result st q c t).operation_stats q.op_type).total_answered_for_avg =
      (st.operation_stats q.op_type).total_answered_for_avg + 1 ∧
    ((process_answer_result st q c t).operation_stats q.op_type).avg_time =
      ((st.operation_stats q.op_type).avg_time *
          ((st.operation_stats q.op_type).total_answered_for_avg : ℚ) + t) /
        (((st.operation_stats q.op_type).total_answered_for_avg + 1 : ℤ) : ℚ) := by
  have hb : (st.game_active || st.practice_active) = true := by
    rcases hact with h | h <;> simp [h]
  unfold process_answer_result
  rw [if_pos hb, answer_mode_effects_stats]
  exact record_answer_stats_stat st q c t

theorem run_answers_stat (q : Question) :
    ∀ (rs : List (Bool × ℚ)) (st : TrainerState),
      st.game_active = true ∨ st.practice_active = true →
      0 ≤ (st.operation_stats q.op_type).total_answered_for_avg →
      ((run_answers st q rs).operation_stats q.op_type).total_answered_for_avg =
        (st.operation_stats q.op_type).total_answered_for_avg + rs.length ∧
      ((run_answers st q rs).operation_stats q.op_type).avg_time *
          (((st.operation_stats q.op_type).total_answered_for_avg + rs.length : ℤ) : ℚ) =
        (st.operation_stats q.op_type).avg_time *
            ((st.operation_stats q.op_type).total_answered_for_avg : ℚ) +
          (rs.map Prod.snd).sum := by
  intro rs
  induction rs with
  | nil =>
    intro st _ _
    refine ⟨by simp [run_answers], ?_⟩
    simp [run_answers]
  | cons r rs ih =>
    intro st hact hn
    have hstep := process_answer_result_stat st q r.1 r.2 hact
    have hact' : (process_answer_result st q r.1 r.2).game_active = true ∨
        (process_answer_result st q r.1 r.2).practice_active = true := by
      obtain ⟨h1, h2⟩ := process_answer_result_flags st q r.1 r.2
      rcases hact with h | h
      · exact Or.inl (h1.trans h)
      · exact Or.inr (h2.trans h)
    have hn' : 0 ≤ ((process_answer_result st q r.1 r.2).operation_stats
        q.op_type).total_answered_for_avg := by
      rw [hstep.1]; omega
    have hrun : run_answers st q (r :: rs) =
        run_answers (process_answer_result st q r.1 r.2) q rs := rfl
    obtain ⟨ihc, iha⟩ := ih (process_answer_result st q r.1 r.2) hact' hn'
    rw [hrun]
    set n := (st.operation_stats q.op_type).total_answered_for_avg with hdefn
    constructor
    · rw [ihc, hstep.1]
      simp
      omega
    · rw [hstep.1] at iha
      have hcast : ((n + 1 + rs.length : ℤ) : ℚ) = ((n + (r :: rs).length : ℤ) : ℚ) := by
        simp
        ring
    -- combine
      have hne : (((n + 1 : ℤ)) : ℚ) ≠ 0 := by
        push_cast
        intro habs
        have : (n : ℚ) = -1 := by linarith
        have : n = -1 := by exact_mod_cast this
        omega
      rw [← hcast, iha, hstep.2]
      rw [div_mul_cancel₀ _ hne]
      simp
      ring

/-- C7: the per-operation running average is the arithmetic mean.  Folding
any sequence of answer records for one question through
`process_answer_result` (starting active, with no prior samples for that
operation) leaves `total_answered_for_avg` equal to the number of records
regardless of correctness, and `avg_time` equal to the arithmetic mean of
the recorded latencies when at least one was recorded. -/
theorem running_average_is_mean (st : TrainerState) (q : Question) (rs : List (Bool × ℚ))
    (hact : st.game_active = true ∨ st.practice_active = true)
    (h0 : (st.operation_stats q.op_type).total_answered_for_avg = 0) :
    ((run_answers st q rs).operation_stats q.op_type).total_answered_for_avg = rs.length ∧
    (rs ≠ [] → ((run_answers st q rs).operation_stats q.op_type).avg_time =
      (rs.map Prod.snd).sum / (rs.length : ℚ)) := by
  obtain ⟨hc, ha⟩ := run_answers_stat q rs st hact (by omega)
  rw [h0] at hc ha
  refine ⟨by rw [hc]; simp, ?_⟩
  intro hne
  have hlen : ((rs.length : ℤ) : ℚ) ≠ 0 := by
    have : rs.length ≠ 0 := fun habs => hne (List.length_eq_zero.mp habs)
    exact_mod_cast this
  rw [eq_div_iff (by exact_mod_cast hlen)]
  have : ((run_answers st q rs).operation_stats q.op_type).avg_time * ((rs.length : ℤ) : ℚ) =
      (rs.map Prod.snd).sum := by
    have h2 := ha
    rw [zero_add] at h2
    simpa using h2
  calc ((run_answers st q rs).operation_stats q.op_type).avg_time * (rs.length : ℚ)
      = ((run_answers st q rs).operation_stats q.op_type).avg_time * ((rs.length : ℤ) : ℚ) := by
        norm_cast
    _ = (rs.map Prod.snd).sum := this

/-- Concrete instantiation of C7: recording latencies 2, 4, 6 (with mixed
correctness) from a fresh state yields a running average of 4 over 3
samples. -/
theorem running_average_is_mean_witness :
    ((run_answers stateFresh questionFive [(true, 2), (false, 4), (true, 6)]).operation_stats
      questionFive.op_type).total_answered_for_avg = 3 ∧
    ((run_answers stateFresh questionFive [(true, 2), (false, 4), (true, 6)]).operation_stats
      questionFive.op_type).avg_time = 4 := by
  have h := running_average_is_mean stateFresh questionFive [(true, 2), (false, 4), (true, 6)]
    (Or.inl rfl) rfl
  refine ⟨by rw [h.1]; norm_num, ?_⟩
  rw [h.2 (by simp)]
  norm_num

theorem calculate_xp_for_level_pos (level : ℤ) : 0 < calculate_xp_for_level level := by
  unfold calculate_xp_for_level
  split
  · norm_num
  · unfold pyint
    have hq : (1 : ℚ) ≤ 100 * (3 / 2 : ℚ) ^ (level - 1).toNat := by
      have h1 : (1 : ℚ) ≤ (3 / 2 : ℚ) ^ (level - 1).toNat :=
        one_le_pow₀ (by norm_num)
      nlinarith
    rw [if_pos (by linarith)]
    have := Int.le_floor.mpr (by exact_mod_cast hq : ((1 : ℤ) : ℚ) ≤ _)
    omega

theorem update_xp_invariant (p : Progression) (hpos : 0 < p.xp_needed) :
    (update_xp_and_level p).current_xp < (update_xp_and_level p).xp_needed := by
  induction p using update_xp_and_level.induct with
  | case1 p h ih =>
    rw [update_xp_and_level, dif_pos h]
    exact ih (calculate_xp_for_level_pos _)
  | case2 p h =>
    rw [update_xp_and_level, dif_neg h]
    rcases not_and_or.mp h with h1 | h2
    · exact absurd hpos h1
    · omega

theorem calculate_xp_three : calculate_xp_for_level 3 = 225 := by
  unfold calculate_xp_for_level
  rw [if_neg (by norm_num)]
  unfold pyint
  rw [if_pos (by norm_num)]
  have htn : (3 - 1 : ℤ).toNat = 2 := rfl
  rw [htn]
  have h92 : (100 * (3 / 2 : ℚ) ^ 2) = ((225 : ℤ) : ℚ) := by norm_num
  rw [h92, Int.floor_intCast]

theorem xp_scenario :
    update_xp_and_level ⟨1, 0 + 150, 100⟩ = ⟨2, 50, calculate_xp_for_level 3⟩ := by
  rw [update_xp_and_level, dif_pos (by norm_num)]
  dsimp only
  norm_num
  rw [update_xp_and_level, dif_neg (by norm_num [calculate_xp_three])]

/-- C8: after any XP-awarding transaction `xp < xp_to_next` holds (surplus
XP rolls over into consecutive level-ups; the hypothesis `0 < xp_needed` is
the state invariant maintained by `calculate_xp_for_level`), and awarding
150 XP at level 1 with `xp_to_next = 100` yields level 2, 50 XP, and
`xp_to_next = calculate_xp_for_level 3`. -/
theorem xp_rollover_invariant_and_levelup :
    (∀ p : Progression, 0 < p.xp_needed →
      (update_xp_and_level p).current_xp < (update_xp_and_level p).xp_needed) ∧
    update_xp_and_level ⟨1, 0 + 150, 100⟩ = ⟨2, 50, calculate_xp_for_level 3⟩ :=
  ⟨update_xp_invariant, xp_scenario⟩

/-- Concrete instantiation of C8 at the level-up boundary state. -/
theorem xp_rollover_invariant_and_levelup_witness :
    (update_xp_and_level ⟨1, 150, 100⟩).current_xp <
      (update_xp_and_level ⟨1, 150, 100⟩).xp_needed :=
  xp_rollover_invariant_and_levelup.1 ⟨1, 150, 100⟩ (by norm_num)

set_option maxHeartbeats 4000000 in
set_option maxRecDepth 100000 in
/-- C6: for every level from 1 to 200 and each of the four self-assessment
tiers, the value range of `get_difficulty_params` satisfies `1 ≤ low` and
`low < high` (the repair rule collapses any invalid range, so a caller
never observes `low ≥ high`). -/
theorem difficulty_range_valid (level : ℤ) (tier : String) (h1 : 1 ≤ level)
    (h2 : level ≤ 200) (ht : tier ∈ ["bad", "good", "nice", "perfect"]) :
    1 ≤ (get_difficulty_params tier level).range.1 ∧
    (get_difficulty_params tier level).range.1 < (get_difficulty_params tier level).range.2 := by
  have key : ∀ i ∈ List.range 200, ∀ t ∈ ["bad", "good", "nice", "perfect"],
      1 ≤ (get_difficulty_params t ((i : ℤ) + 1)).range.1 ∧
      (get_difficulty_params t ((i : ℤ) + 1)).range.1 <
        (get_difficulty_params t ((i : ℤ) + 1)).range.2 :=
    of_decide_eq_true (by with_unfolding_all rfl)
  have hi : (level - 1).toNat ∈ List.range 200 := List.mem_range.mpr (by omega)
  have hcast : (((level - 1).toNat : ℤ) + 1) = level := by omega
  have hk := key (level - 1).toNat hi tier ht
  rwa [hcast] at hk

/-- Concrete instantiation of C6 at level 150, tier `perfect` (a level past
the bracket table, resolved by the extrapolation formula). -/
theorem difficulty_range_valid_witness :
    1 ≤ (get_difficulty_params "perfect" 150).range.1 ∧
    (get_difficulty_params "perfect" 150).range.1 <
      (get_difficulty_params "perfect" 150).range.2 :=
  difficulty_range_valid 150 "perfect" (by norm_num) (by norm_num) (by simp)

/-- C10: ending a game session in which zero questions were answered
appends no session record: `stop_game` leaves `session_history` unchanged
whenever `questions_answered = 0` (the accuracy quotient is computed only
inside the guarded branch). -/
theorem zero_question_session_keeps_history (st : TrainerState) (timedout : Bool) (now : ℚ)
    (d : String) (h : st.questions_answered = 0) :
    (stop_game st timedout now d).session_history = st.session_history := by
  unfold stop_game
  dsimp only
  rw [if_neg (by rw [h]; simp)]

/-- Concrete instantiation of C10 on a fresh state with no answers. -/
theorem zero_question_session_keeps_history_witness :
    (stop_game stateFresh false 0 "2026-10-12 00:00").session_history =
      stateFresh.session_history :=
  zero_question_session_keeps_history stateFresh false 0 "2026-10-12 00:00" rfl

/-- Concrete instantiation of C4 as amended: a correct `wrong_ones` practice
answer clears the matching wrong entry, and an incorrect `slow_ones`
practice answer still removes the matching slow entry. -/
theorem retry_removal_by_mode_witness :
    (∀ e ∈ (process_answer_result stateExW questionEx true 1).persistently_wrong_questions,
      ¬(e.raw_q = questionEx.raw_question ∧ e.op_type = questionEx.op_type)) ∧
    (process_answer_result stateEx questionEx false 1).persistently_slow_questions =
      remove_matching_slow stateEx.persistently_slow_questions questionEx.raw_question
        questionEx.op_type :=
  ⟨((retry_removal_by_mode stateExW questionEx true 1 rfl rfl).1 rfl).1 rfl,
   (retry_removal_by_mode stateEx questionEx false 1 rfl rfl).2 rfl⟩

/-- Concrete instantiation of C5: a state with both queues at their caps in
game mode keeps the wrong queue at 30 after an incorrect answer, the slow
queue at 20 after a correct answer, and the key invariant. -/
theorem retry_queue_dedup_and_cap_witness :
    (process_answer_result stateFull questionFive false 1).persistently_wrong_questions.length
      = 30 ∧
    (process_answer_result stateFull questionFive true 1).persistently_slow_questions.length
      = 20 ∧
    ((process_answer_result stateFull questionFive false
      1).persistently_wrong_questions.map wrongKey).Nodup :=
  ⟨(retry_queue_dedup_and_cap stateFull questionFive false 1).2.2.2.1 rfl rfl (by decide),
   (retry_queue_dedup_and_cap stateFull questionFive true 1).2.2.2.2.2 rfl rfl (by decide),
   (retry_queue_dedup_and_cap stateFull questionFive false 1).1.1 (by decide)⟩

end MathTrainer
